import Mathlib

/-!
# Verification of the travel-agent conversation orchestration core

A shallow embedding, in Lean 4, of the conversation-orchestration core of the
`langgraph-travel-agent` backend (`backend/travel_agent/agents.py`,
`backend/main.py`), together with proofs about the plan-diff / rerun gate, the
fingerprint generator, the result-cache resolver, the sequential executor, the
date gate and the HTTP suspension protocol.

Modelling conventions:
* Python `Optional[str]` fields become `Option String`; Python truthiness of an
  optional string (`None` and `""` are falsy) is `strTruthy`.
* `total_budget` is a Python `float` that the core only ever compares for
  (in)equality and positivity; it is embedded as `Option Rat` (exact values).
* JSON payloads carried by tool messages are embedded as a `JVal` inductive
  (the parsed form); the source serialises with `json.dumps` and re-parses with
  `json.loads`, which round-trips for every value the executor produces.
* The `hashlib.md5(key_str.encode()).hexdigest()[:8]` digest is an external
  cryptographic primitive; it is embedded as an explicit parameter
  `hash : String → String` applied to the exact joined key string the source
  builds.  Theorems quantify over `hash`; witnesses instantiate it.
-/

namespace TravelAgent

/-- Python truthiness of an `Optional[str]`: `None` and `""` are falsy. -/
def strTruthy : Option String → Bool
  | some s => !(s == "")
  | none => false

/-- `a or b or ""` on optional strings (first truthy value, else `""`). -/
def pyOr2 (a b : Option String) : String :=
  if strTruthy a then a.getD "" else if strTruthy b then b.getD "" else ""

/-- `str(x or "")` on an optional string. -/
def pyOrEmpty (o : Option String) : String :=
  if strTruthy o then o.getD "" else ""

/-- `user_intent` literal of `TravelPlan` (schemas.py). -/
inductive Intent where
  | full_plan
  | flights_only
  | hotels_only
  | activities_only
deriving DecidableEq, Repr

/-- `TravelPlan` (schemas.py): the structured plan extracted from user text. -/
structure TravelPlan where
  origin : Option String
  destination : String
  departure_date : Option String
  return_date : Option String
  duration_days : Option Int
  adults : Int
  travel_class : Option String
  departure_time_pref : Option String
  arrival_time_pref : Option String
  total_budget : Option Rat
  user_intent : Intent
deriving DecidableEq, Repr

/-- The keys of `TravelPlan.model_dump()`, in declaration order. -/
def planFieldNames : List String :=
  ["origin", "destination", "departure_date", "return_date", "duration_days",
   "adults", "travel_class", "departure_time_pref", "arrival_time_pref",
   "total_budget", "user_intent"]

/-- Whether field `k` of the two dumps differs (`a.get(k) != b.get(k)`). -/
def fieldDiffers (a b : TravelPlan) (k : String) : Bool :=
  if k = "origin" then a.origin ≠ b.origin
  else if k = "destination" then a.destination ≠ b.destination
  else if k = "departure_date" then a.departure_date ≠ b.departure_date
  else if k = "return_date" then a.return_date ≠ b.return_date
  else if k = "duration_days" then a.duration_days ≠ b.duration_days
  else if k = "adults" then a.adults ≠ b.adults
  else if k = "travel_class" then a.travel_class ≠ b.travel_class
  else if k = "departure_time_pref" then a.departure_time_pref ≠ b.departure_time_pref
  else if k = "arrival_time_pref" then a.arrival_time_pref ≠ b.arrival_time_pref
  else if k = "total_budget" then a.total_budget ≠ b.total_budget
  else if k = "user_intent" then a.user_intent ≠ b.user_intent
  else false

/-- `_changed_fields` (agents.py): the set of dump keys whose values differ. -/
def changedFields (prev new : TravelPlan) : Finset String :=
  planFieldNames.toFinset.filter (fun k => fieldDiffers prev new k)

/-- `flights_deps` in `_compute_rerun_flags` (agents.py). -/
def flightsDeps : Finset String :=
  {"origin", "destination", "departure_date", "return_date",
   "adults", "travel_class", "departure_time_pref", "arrival_time_pref", "user_intent"}

/-- `hotels_deps` in `_compute_rerun_flags` (agents.py). -/
def hotelsDeps : Finset String :=
  {"destination", "departure_date", "return_date", "adults", "user_intent"}

/-- `activities_deps` in `_compute_rerun_flags` (agents.py). -/
def activitiesDeps : Finset String := {"destination", "user_intent"}

/-- `_compute_rerun_flags` (agents.py): returns
`(rerun_flights, rerun_hotels, rerun_activities)`; `prev = None` means a first
plan, which reruns everything; a budget-only change forces all three to false. -/
def computeRerunFlags (prev : Option TravelPlan) (new : TravelPlan) :
    Bool × Bool × Bool :=
  match prev with
  | none => (true, true, true)
  | some p =>
    let changed := changedFields p new
    let rerun_flights : Bool := decide (changed ∩ flightsDeps).Nonempty
    let rerun_hotels : Bool := decide (changed ∩ hotelsDeps).Nonempty
    let rerun_activities : Bool := decide (changed ∩ activitiesDeps).Nonempty
    if changed = {"total_budget"} then (false, false, false)
    else (rerun_flights, rerun_hotels, rerun_activities)

lemma total_budget_not_mem_flightsDeps : "total_budget" ∉ flightsDeps := by decide

lemma total_budget_not_mem_hotelsDeps : "total_budget" ∉ hotelsDeps := by decide

lemma total_budget_not_mem_activitiesDeps : "total_budget" ∉ activitiesDeps := by decide

/-- **C1.** The rerun gate is total and first-turn-complete: with no previous
plan all three flags are true; otherwise each category's flag is true iff the
set of changed `TripPlan` fields intersects that category's fixed dependency
set (flights: origin, destination, departure_date, return_date, adults,
travel_class, departure_time_pref, arrival_time_pref, user_intent; hotels:
destination, departure_date, return_date, adults, user_intent; activities:
destination, user_intent).  The budget-only special case in the source never
changes this, because `total_budget` belongs to no dependency set. -/
theorem rerun_gate_total_and_dependency_exact (p new : TravelPlan) :
    computeRerunFlags none new = (true, true, true) ∧
    ((computeRerunFlags (some p) new).1 = true ↔
      (changedFields p new ∩ flightsDeps).Nonempty) ∧
    ((computeRerunFlags (some p) new).2.1 = true ↔
      (changedFields p new ∩ hotelsDeps).Nonempty) ∧
    ((computeRerunFlags (some p) new).2.2 = true ↔
      (changedFields p new ∩ activitiesDeps).Nonempty) := by
  refine ⟨rfl, ?_, ?_, ?_⟩ <;>
  · unfold computeRerunFlags
    by_cases hb : changedFields p new = {"total_budget"}
    · simp only [hb, if_pos rfl]
      constructor
      · intro h
        exact absurd h (by simp)
      · rintro ⟨k, hk⟩
        rw [Finset.mem_inter, Finset.mem_singleton] at hk
        obtain ⟨rfl, hk2⟩ := hk
        first
        | exact absurd hk2 total_budget_not_mem_flightsDeps
        | exact absurd hk2 total_budget_not_mem_hotelsDeps
        | exact absurd hk2 total_budget_not_mem_activitiesDeps
    · simp [hb, decide_eq_true_iff]

/-! ## Fingerprint generator (`_compute_tool_key`, agents.py) -/

/-- The three search tools of the core. -/
inductive ToolName where
  | search_flights
  | search_and_compare_hotels
  | search_activities_by_city
deriving DecidableEq, Repr

/-- The Python name of each tool (used in `tool_call_id`s and `msg.name`). -/
def toolNameStr : ToolName → String
  | .search_flights => "search_flights"
  | .search_and_compare_hotels => "search_and_compare_hotels"
  | .search_activities_by_city => "search_activities_by_city"

/-- The keyword arguments `_compute_tool_key` reads from `**kwargs`.  A field
set to `none` models an absent dictionary key (`kwargs.get(...)` → `None`). -/
structure KeyKwargs where
  originLocationCode : Option String := none
  destinationLocationCode : Option String := none
  departureDate : Option String := none
  returnDate : Option String := none
  city_code : Option String := none
  check_in_date : Option String := none
  check_out_date : Option String := none
  city_name : Option String := none
  one_way : Bool := false
deriving DecidableEq, Repr

/-- The ordered `parts` list of `_compute_tool_key` (agents.py): the semantic
values of the tool's dependency fields, with kwargs taking precedence over the
plan field when truthy. -/
def toolKeyParts (tool : ToolName) (plan : TravelPlan) (kw : KeyKwargs) :
    List String :=
  match tool with
  | .search_flights =>
      [pyOr2 kw.originLocationCode plan.origin,
       pyOr2 kw.destinationLocationCode (some plan.destination),
       pyOr2 kw.departureDate plan.departure_date,
       pyOr2 kw.returnDate plan.return_date,
       toString plan.adults,
       pyOrEmpty plan.travel_class,
       pyOrEmpty plan.departure_time_pref,
       pyOrEmpty plan.arrival_time_pref,
       if kw.one_way then "one_way" else "round_trip"]
  | .search_and_compare_hotels =>
      [pyOr2 kw.city_code (some plan.destination),
       pyOr2 kw.check_in_date plan.departure_date,
       pyOr2 kw.check_out_date plan.return_date,
       toString plan.adults]
  | .search_activities_by_city =>
      [pyOr2 kw.city_name (some plan.destination)]

/-- `"|".join(parts)` (str.join semantics). -/
def joinParts : List String → String
  | [] => ""
  | [s] => s
  | s :: rest => s ++ "|" ++ joinParts rest

/-- `key_str` in `_compute_tool_key`: the joined semantic parts. -/
def computeToolKeyString (tool : ToolName) (plan : TravelPlan) (kw : KeyKwargs) :
    String :=
  joinParts (toolKeyParts tool plan kw)

/-- `_compute_tool_key` (agents.py): the joined key string fed through the
digest `hashlib.md5(...).hexdigest()[:8]`, embedded as the parameter `hash`. -/
def computeToolKey (hash : String → String) (tool : ToolName) (plan : TravelPlan)
    (kw : KeyKwargs) : String :=
  hash (computeToolKeyString tool plan kw)

/-- `_semantic_key_kwargs_for_tool` (agents.py): the kwargs used for key
computation are always the semantic parameters (never IATA/city codes), and
`one_way` is the final execution policy.  The entries `adults`, `travelClass`,
`departureTime` and `arrivalTime` that the source also puts in the dict are
never read back by `_compute_tool_key` (it takes them from the plan) and are
omitted here. -/
def semanticKeyKwargsForTool (plan : TravelPlan) (tool : ToolName)
    (one_way : Bool) : KeyKwargs :=
  match tool with
  | .search_flights =>
      { originLocationCode := some (pyOrEmpty plan.origin),
        destinationLocationCode := some plan.destination,
        departureDate := some (pyOrEmpty plan.departure_date),
        returnDate := some (pyOrEmpty plan.return_date),
        one_way := one_way }
  | .search_and_compare_hotels =>
      { city_code := some plan.destination,
        check_in_date := some (pyOrEmpty plan.departure_date),
        check_out_date := some (pyOrEmpty plan.return_date) }
  | .search_activities_by_city =>
      { city_name := some plan.destination }

/-- The flights dependency-field tuple the fingerprint reads (with the
direction policy fixed): two plans agreeing on it get equal flight keys. -/
def flightsKeyFields (plan : TravelPlan) :
    Option String × String × Option String × Option String × Int ×
      Option String × Option String × Option String :=
  (plan.origin, plan.destination, plan.departure_date, plan.return_date,
   plan.adults, plan.travel_class, plan.departure_time_pref,
   plan.arrival_time_pref)

/-- The hotels dependency-field tuple the fingerprint reads. -/
def hotelsKeyFields (plan : TravelPlan) :
    String × Option String × Option String × Int :=
  (plan.destination, plan.departure_date, plan.return_date, plan.adults)

/-- The activities dependency-field tuple the fingerprint reads. -/
def activitiesKeyFields (plan : TravelPlan) : String :=
  plan.destination

lemma pyOr2_some_self (o : Option String) :
    pyOr2 (some (pyOrEmpty o)) o = pyOrEmpty o := by
  cases o with
  | none => rfl
  | some s =>
    by_cases h : s = ""
    · simp [pyOr2, pyOrEmpty, strTruthy, h]
    · simp [pyOr2, pyOrEmpty, strTruthy, h]

lemma semantic_key_parts_eq (tool : ToolName) (p q : TravelPlan) (ow : Bool)
    (hf : tool = .search_flights → flightsKeyFields p = flightsKeyFields q)
    (hh : tool = .search_and_compare_hotels → hotelsKeyFields p = hotelsKeyFields q)
    (ha : tool = .search_activities_by_city →
      activitiesKeyFields p = activitiesKeyFields q) :
    toolKeyParts tool p (semanticKeyKwargsForTool p tool ow) =
      toolKeyParts tool q (semanticKeyKwargsForTool q tool ow) := by
  cases tool with
  | search_flights =>
    have h := hf rfl
    simp only [flightsKeyFields, Prod.mk.injEq] at h
    obtain ⟨e1, e2, e3, e4, e5, e6, e7, e8⟩ := h
    simp [toolKeyParts, semanticKeyKwargsForTool, e1, e2, e3, e4, e5, e6, e7, e8]
  | search_and_compare_hotels =>
    have h := hh rfl
    simp only [hotelsKeyFields, Prod.mk.injEq] at h
    obtain ⟨e1, e2, e3, e4⟩ := h
    simp [toolKeyParts, semanticKeyKwargsForTool, e1, e2, e3, e4]
  | search_activities_by_city =>
    have h := ha rfl
    simp only [activitiesKeyFields] at h
    simp [toolKeyParts, semanticKeyKwargsForTool, h]

/-! ## JSON payloads and the message stream -/

/-- Parsed JSON values (the form `json.loads` yields for tool contents). -/
inductive JVal where
  | jnull
  | jbool (b : Bool)
  | jstr (s : String)
  | jnum (q : Rat)
  | jarr (xs : List JVal)
  | jobj (fields : List (String × JVal))

/-- Python truthiness of a JSON-decoded value. -/
def jTruthy : JVal → Bool
  | .jnull => false
  | .jbool b => b
  | .jstr s => !(s == "")
  | .jnum q => !(q == 0)
  | .jarr xs => !xs.isEmpty
  | .jobj fs => !fs.isEmpty

/-- `dict.get` on a decoded JSON object (`json.loads` keeps the last binding
of a duplicated key, so the last match wins). -/
def jGet (fields : List (String × JVal)) (k : String) : Option JVal :=
  fields.foldl (fun acc p => if p.1 = k then some p.2 else acc) none

/-- `_tool_content_is_all_error_placeholders` (agents.py): the decoded content
is a non-empty list whose every element is a dict with a truthy `is_error`. -/
def isAllErrorPlaceholders (content : JVal) : Bool :=
  match content with
  | .jarr [] => false
  | .jarr items =>
      items.all fun item =>
        match item with
        | .jobj fs => jTruthy ((jGet fs "is_error").getD (.jbool false))
        | _ => false
  | _ => false

/-- A `ToolMessage` as produced by the executor: tool name, a
`call_<tool>:<key>:<index>` id, and the (decoded) JSON content. -/
structure ToolMsg where
  name : ToolName
  tool_call_id : String
  content : JVal

/-- The heterogeneous LangChain message stream, as a tagged variant. -/
inductive Msg where
  | human (text : String)
  | ai (text : String)
  | tool (tm : ToolMsg)

/-- Python `str.split(sep)` for a single-character separator, over the
string's character list.  Always returns a non-empty list; splitting the empty
string yields `[[]]`. -/
def pySplit (sep : Char) : List Char → List (List Char)
  | [] => [[]]
  | c :: rest =>
    match pySplit sep rest with
    | h :: t => if c = sep then [] :: h :: t else (c :: h) :: t
    | [] => [[c]]

/-- `_extract_tool_key_from_call_id` (agents.py): expects
`call_<tool>:<key>:<index>`, splits on `":"` and returns the second component
(`None` for an empty id or fewer than three components). -/
def extractToolKeyFromCallId (tool_call_id : String) : Option String :=
  if tool_call_id = "" then none
  else
    let parts := (pySplit ':' tool_call_id.data).map String.mk
    if 3 ≤ parts.length then parts[1]? else none

/-- The phase-1 acceptance test of `synthesize_results_node`:
`stored_key and stored_key == current_keys.get(msg.name)`.  `current_keys` is
empty when the state has no plan, hence per-tool keys are `Option String`. -/
def storedKeyMatches (tool_call_id : String) (currentKey : Option String) : Bool :=
  match extractToolKeyFromCallId tool_call_id with
  | some k => !(k == "") && currentKey == some k
  | none => false

/-! ## Result-cache resolver (`synthesize_results_node`, agents.py) -/

/-- Phase 1 of the resolver: a single backwards pass over the messages
(`for msg in reversed(messages)`) with a `pending` set, accepting for each
still-pending tool the first (most recent) `ToolMessage` whose stored key
matches that tool's current key; the pass stops early once `pending` is empty.
`msgsRev` is the already-reversed message list; `acc` accumulates the
`tool_results` dict. -/
def resolverPhase1 (currentKeys : ToolName → Option String) :
    List Msg → List ToolName → List (ToolName × JVal) →
    List (ToolName × JVal) × List ToolName
  | [], pending, acc => (acc, pending)
  | m :: rest, pending, acc =>
    if pending.isEmpty then (acc, pending)
    else
      match m with
      | .tool tm =>
        if tm.name ∈ pending then
          if storedKeyMatches tm.tool_call_id (currentKeys tm.name) then
            resolverPhase1 currentKeys rest (pending.erase tm.name)
              ((tm.name, tm.content) :: acc)
          else resolverPhase1 currentKeys rest pending acc
        else resolverPhase1 currentKeys rest pending acc
      | _ => resolverPhase1 currentKeys rest pending acc

/-- Restriction of a message to "the `ToolMessage` named `t`"
(`isinstance(msg, ToolMessage) and msg.name == t`). -/
def toolNamed (t : ToolName) (m : Msg) : Option ToolMsg :=
  match m with
  | .tool tm => if tm.name = t then some tm else none
  | _ => none

/-- The most recent `ToolMessage` named `name` (the `for msg in
reversed(messages) ... break` inner loop of phase 2). -/
def mostRecentToolMsgNamed (msgs : List Msg) (name : ToolName) : Option ToolMsg :=
  msgs.reverse.findSome? (toolNamed name)

/-- One phase-2 step: a pending tool accepts its most recent record iff that
record's payload is entirely error placeholders. -/
def phase2Step (msgs : List Msg) (acc : List (ToolName × JVal))
    (name : ToolName) : List (ToolName × JVal) :=
  match mostRecentToolMsgNamed msgs name with
  | some tm =>
      if isAllErrorPlaceholders tm.content then (name, tm.content) :: acc
      else acc
  | none => acc

/-- Phase 2 of the resolver: the stale-error degraded fallback, applied to each
tool still pending after phase 1. -/
def resolverPhase2 (msgs : List Msg) (pending : List ToolName)
    (acc : List (ToolName × JVal)) : List (ToolName × JVal) :=
  pending.foldl (phase2Step msgs) acc

/-- The `tool_results` dict assembled by `synthesize_results_node` from the
message history: fingerprint-matched records first, then the stale-error
degraded fallback for the remaining pending tools. -/
def resolveToolResults (currentKeys : ToolName → Option String)
    (allowed : List ToolName) (msgs : List Msg) : List (ToolName × JVal) :=
  let s := resolverPhase1 currentKeys msgs.reverse allowed []
  resolverPhase2 msgs s.2 s.1

/-- Lookup in the accumulated `tool_results` dict. -/
def findResult (acc : List (ToolName × JVal)) (t : ToolName) : Option JVal :=
  acc.findSome? fun p => if p.1 = t then some p.2 else none

/-- The stored tool-result records for one category, oldest first (the claim's
view of the history). -/
def toolMsgsFor (msgs : List Msg) (name : ToolName) : List ToolMsg :=
  msgs.filterMap fun m =>
    match m with
    | .tool tm => if tm.name = name then some tm else none
    | _ => none

/-- The resolver contract as the specification states it, per category: scan
that category's records from most recent to oldest and take the first whose
stored key matches the current fingerprint; failing that, take the most recent
record iff its payload is entirely error placeholders. -/
def specResolveCategory (currentKey : Option String) (records : List ToolMsg) :
    Option JVal :=
  match records.reverse.find? (fun tm => storedKeyMatches tm.tool_call_id currentKey) with
  | some tm => some tm.content
  | none =>
      match records.getLast? with
      | some tm =>
          if isAllErrorPlaceholders tm.content then some tm.content else none
      | none => none

/-! ### Characterisation of the resolver -/

/-- Restriction of a message to "the `ToolMessage` named `t` whose stored key
matches `t`'s current key". -/
def toolNamedMatching (ck : ToolName → Option String) (t : ToolName) (m : Msg) :
    Option ToolMsg :=
  match m with
  | .tool tm =>
      if tm.name = t then
        if storedKeyMatches tm.tool_call_id (ck t) then some tm else none
      else none
  | _ => none

lemma findResult_cons (n : ToolName) (c : JVal) (acc : List (ToolName × JVal))
    (t : ToolName) :
    findResult ((n, c) :: acc) t = if n = t then some c else findResult acc t := by
  simp only [findResult, List.findSome?]
  split <;> simp_all

lemma toolMsgsFor_eq_filterMap (msgs : List Msg) (t : ToolName) :
    toolMsgsFor msgs t = msgs.filterMap (toolNamed t) := by
  unfold toolMsgsFor toolNamed
  rfl

lemma filterMap_reverse {α β : Type} (f : α → Option β) (l : List α) :
    l.reverse.filterMap f = (l.filterMap f).reverse := by
  induction l with
  | nil => rfl
  | cons a l ih =>
    simp only [List.reverse_cons, List.filterMap_append, List.filterMap_cons, ih]
    cases f a <;> simp

lemma findSome?_toolNamedMatching (ck : ToolName → Option String) (t : ToolName)
    (l : List Msg) :
    l.findSome? (toolNamedMatching ck t) =
      (l.filterMap (toolNamed t)).find?
        (fun tm => storedKeyMatches tm.tool_call_id (ck t)) := by
  induction l with
  | nil => rfl
  | cons m rest ih =>
    simp only [List.findSome?, List.filterMap_cons]
    cases m with
    | tool tm =>
      simp only [toolNamedMatching, toolNamed]
      by_cases hn : tm.name = t
      · simp only [hn, if_true]
        by_cases hk : storedKeyMatches tm.tool_call_id (ck t) = true
        · simp [List.find?, hk]
        · simp [List.find?, hk, ih]
      · simp [hn, ih]
    | human s => exact ih
    | ai s => exact ih

lemma findSome?_eq_head?_filterMap {α β : Type} (f : α → Option β) (l : List α) :
    l.findSome? f = (l.filterMap f).head? := by
  induction l with
  | nil => rfl
  | cons a l ih =>
    simp only [List.findSome?, List.filterMap_cons]
    cases f a with
    | none => exact ih
    | some b => rfl

/-- Phase 1 only erases names from `pending`. -/
lemma resolverPhase1_pending_sublist (ck : ToolName → Option String) :
    ∀ (l : List Msg) (pending : List ToolName) (acc : List (ToolName × JVal)),
      (resolverPhase1 ck l pending acc).2.Sublist pending := by
  intro l
  induction l with
  | nil => intro pending acc; exact List.Sublist.refl _
  | cons m rest ih =>
    intro pending acc
    simp only [resolverPhase1]
    split
    · exact List.Sublist.refl _
    · cases m with
      | tool tm =>
        simp only
        split
        · split
          · exact (ih _ _).trans (List.erase_sublist _ _)
          · exact ih _ _
        · exact ih _ _
      | human s => exact ih _ _
      | ai s => exact ih _ _

/-- Phase 1 does not touch tools outside `pending`: their accumulated binding
is unchanged and they never enter the residual pending list. -/
lemma resolverPhase1_not_pending (ck : ToolName → Option String) (t : ToolName) :
    ∀ (l : List Msg) (pending : List ToolName) (acc : List (ToolName × JVal)),
      t ∉ pending →
      findResult (resolverPhase1 ck l pending acc).1 t = findResult acc t ∧
        t ∉ (resolverPhase1 ck l pending acc).2 := by
  intro l
  induction l with
  | nil => intro pending acc ht; exact ⟨rfl, ht⟩
  | cons m rest ih =>
    intro pending acc ht
    simp only [resolverPhase1]
    split
    · exact ⟨rfl, ht⟩
    · cases m with
      | tool tm =>
        simp only
        split
        · rename_i hmem
          have hne : tm.name ≠ t := fun h => ht (h ▸ hmem)
          split
          · refine ⟨?_, ?_⟩
            · rw [(ih _ _ (fun h => ht ((pending.erase_sublist tm.name).mem h))).1,
                findResult_cons]
              simp [hne]
            · exact (ih _ _ (fun h => ht ((pending.erase_sublist tm.name).mem h))).2
          · exact ih _ _ ht
        · exact ih _ _ ht
      | human s => exact ih _ _ ht
      | ai s => exact ih _ _ ht

/-- Phase 1, per still-pending tool `t`: the first (most recent) matching
record in the scan order is accepted and `t` leaves `pending`; with no match,
`t` stays pending with no binding. -/
lemma resolverPhase1_pending_spec (ck : ToolName → Option String) (t : ToolName) :
    ∀ (l : List Msg) (pending : List ToolName) (acc : List (ToolName × JVal)),
      t ∈ pending → pending.Nodup → findResult acc t = none →
      match l.findSome? (toolNamedMatching ck t) with
      | some tm =>
          findResult (resolverPhase1 ck l pending acc).1 t = some tm.content ∧
            t ∉ (resolverPhase1 ck l pending acc).2
      | none =>
          findResult (resolverPhase1 ck l pending acc).1 t = none ∧
            t ∈ (resolverPhase1 ck l pending acc).2 := by
  intro l
  induction l with
  | nil =>
    intro pending acc ht _ hacc
    simpa [List.findSome?] using ⟨hacc, ht⟩
  | cons m rest ih =>
    intro pending acc ht hnd hacc
    have hpe : pending.isEmpty = false := by
      cases pending with
      | nil => cases ht
      | cons a l => rfl
    simp only [resolverPhase1, hpe, Bool.false_eq_true, if_false, List.findSome?]
    cases m with
    | tool tm =>
      simp only
      by_cases hmem : tm.name ∈ pending
      · simp only [hmem, if_true]
        by_cases hkey : storedKeyMatches tm.tool_call_id (ck tm.name) = true
        · simp only [hkey, if_true]
          by_cases hnm : tm.name = t
          · subst hnm
            have hmatch : toolNamedMatching ck tm.name (Msg.tool tm) = some tm := by
              simp [toolNamedMatching, hkey]
            rw [hmatch]
            have hnot : tm.name ∉ pending.erase tm.name :=
              fun h => (List.Nodup.not_mem_erase hnd) h
            obtain ⟨h1, h2⟩ := resolverPhase1_not_pending ck tm.name rest
              (pending.erase tm.name) ((tm.name, tm.content) :: acc) hnot
            rw [h1, findResult_cons]
            simp [h2]
          · have hmatch : toolNamedMatching ck t (Msg.tool tm) = none := by
              simp [toolNamedMatching, hnm]
            rw [hmatch]
            have ht' : t ∈ pending.erase tm.name :=
              (List.Nodup.mem_erase_iff hnd).2 ⟨fun h => hnm h.symm, ht⟩
            have hacc' : findResult ((tm.name, tm.content) :: acc) t = none := by
              rw [findResult_cons]; simp [hnm, hacc]
            exact ih (pending.erase tm.name) _ ht' (hnd.erase tm.name) hacc'
        · simp only [hkey, Bool.false_eq_true, if_false]
          have hmatch : toolNamedMatching ck t (Msg.tool tm) = none := by
            by_cases hnm : tm.name = t
            · subst hnm; simp [toolNamedMatching, hkey]
            · simp [toolNamedMatching, hnm]
          rw [hmatch]
          exact ih pending acc ht hnd hacc
      · simp only [hmem, if_false]
        have hnm : tm.name ≠ t := fun h => hmem (h ▸ ht)
        have hmatch : toolNamedMatching ck t (Msg.tool tm) = none := by
          simp [toolNamedMatching, hnm]
        rw [hmatch]
        exact ih pending acc ht hnd hacc
    | human s =>
      simp only [toolNamedMatching]
      exact ih pending acc ht hnd hacc
    | ai s =>
      simp only [toolNamedMatching]
      exact ih pending acc ht hnd hacc

lemma findResult_phase2Step_ne (msgs : List Msg) (acc : List (ToolName × JVal))
    (n t : ToolName) (hnt : n ≠ t) :
    findResult (phase2Step msgs acc n) t = findResult acc t := by
  unfold phase2Step
  cases mostRecentToolMsgNamed msgs n with
  | some tm =>
    by_cases herr : isAllErrorPlaceholders tm.content = true
    · simp [herr, findResult_cons, hnt]
    · simp [herr]
  | none => rfl

lemma findResult_phase2Step_self (msgs : List Msg) (acc : List (ToolName × JVal))
    (t : ToolName) (hacc : findResult acc t = none) :
    findResult (phase2Step msgs acc t) t =
      match mostRecentToolMsgNamed msgs t with
      | some tm =>
          if isAllErrorPlaceholders tm.content then some tm.content else none
      | none => none := by
  unfold phase2Step
  cases mostRecentToolMsgNamed msgs t with
  | some tm =>
    by_cases herr : isAllErrorPlaceholders tm.content = true
    · simp [herr, findResult_cons]
    · simp [herr, hacc]
  | none => simpa using hacc

lemma resolverPhase2_cons (msgs : List Msg) (n : ToolName)
    (rest : List ToolName) (acc : List (ToolName × JVal)) :
    resolverPhase2 msgs (n :: rest) acc =
      resolverPhase2 msgs rest (phase2Step msgs acc n) := rfl

/-- Phase 2, per tool: a pending tool gets its most-recent record iff that
record is entirely error placeholders; a non-pending tool keeps its binding. -/
lemma resolverPhase2_spec (msgs : List Msg) (t : ToolName) :
    ∀ (pending : List ToolName) (acc : List (ToolName × JVal)),
      pending.Nodup →
      (t ∈ pending → findResult acc t = none →
        findResult (resolverPhase2 msgs pending acc) t =
          match mostRecentToolMsgNamed msgs t with
          | some tm =>
              if isAllErrorPlaceholders tm.content then some tm.content else none
          | none => none) ∧
      (t ∉ pending →
        findResult (resolverPhase2 msgs pending acc) t = findResult acc t) := by
  intro pending
  induction pending with
  | nil =>
    intro acc _
    exact ⟨fun h => absurd h (List.not_mem_nil t), fun _ => rfl⟩
  | cons n rest ih =>
    intro acc hnd
    have hnd' : rest.Nodup := hnd.of_cons
    constructor
    · intro ht hacc
      rw [resolverPhase2_cons]
      rcases List.mem_cons.1 ht with hth | htr
      · subst hth
        have htrest : t ∉ rest := (List.nodup_cons.1 hnd).1
        rw [(ih (phase2Step msgs acc t) hnd').2 htrest]
        exact findResult_phase2Step_self msgs acc t hacc
      · have hnt : n ≠ t := fun h => (List.nodup_cons.1 hnd).1 (h ▸ htr)
        exact (ih (phase2Step msgs acc n) hnd').1 htr
          ((findResult_phase2Step_ne msgs acc n t hnt).trans hacc)
    · intro ht
      rw [resolverPhase2_cons]
      have htrest : t ∉ rest := fun h => ht (List.mem_cons_of_mem n h)
      have hnt : n ≠ t := fun h => ht (h ▸ List.mem_cons_self n rest)
      rw [(ih (phase2Step msgs acc n) hnd').2 htrest]
      exact findResult_phase2Step_ne msgs acc n t hnt

/-- The operational resolver agrees, per category, with the specification-level
resolver: most-recent fingerprint match first, then the stale-error fallback on
the single most recent record; tools outside the allowed set resolve nothing. -/
lemma resolve_eq_specResolve (ck : ToolName → Option String)
    (allowed : List ToolName) (msgs : List Msg) (t : ToolName)
    (hnd : allowed.Nodup) :
    findResult (resolveToolResults ck allowed msgs) t =
      if t ∈ allowed then specResolveCategory (ck t) (toolMsgsFor msgs t)
      else none := by
  unfold resolveToolResults
  have hnd1 : (resolverPhase1 ck msgs.reverse allowed []).2.Nodup :=
    (resolverPhase1_pending_sublist ck msgs.reverse allowed []).nodup hnd
  have hrecrev :
      (toolMsgsFor msgs t).reverse = msgs.reverse.filterMap (toolNamed t) := by
    rw [toolMsgsFor_eq_filterMap, ← filterMap_reverse]
  have hfind :
      msgs.reverse.findSome? (toolNamedMatching ck t) =
        (toolMsgsFor msgs t).reverse.find?
          (fun tm => storedKeyMatches tm.tool_call_id (ck t)) := by
    rw [findSome?_toolNamedMatching, hrecrev]
  have hlast :
      mostRecentToolMsgNamed msgs t = (toolMsgsFor msgs t).getLast? := by
    unfold mostRecentToolMsgNamed
    rw [findSome?_eq_head?_filterMap, ← hrecrev, List.head?_reverse]
  by_cases ht : t ∈ allowed
  · simp only [ht, if_true]
    have hspec := resolverPhase1_pending_spec ck t msgs.reverse allowed [] ht hnd rfl
    unfold specResolveCategory
    rw [← hfind]
    cases hms : msgs.reverse.findSome? (toolNamedMatching ck t) with
    | some tm =>
      rw [hms] at hspec
      obtain ⟨h1, h2⟩ := hspec
      rw [((resolverPhase2_spec msgs t _ _ hnd1).2) h2, h1]
    | none =>
      rw [hms] at hspec
      obtain ⟨h1, h2⟩ := hspec
      rw [((resolverPhase2_spec msgs t _ _ hnd1).1) h2 h1, hlast]
  · simp only [ht, if_false]
    obtain ⟨h1, h2⟩ := resolverPhase1_not_pending ck t msgs.reverse allowed [] ht
    rw [((resolverPhase2_spec msgs t _ _ hnd1).2) h2, h1]
    rfl

/-! ## Sequential executor (tool loop of `call_model_node`, agents.py) -/

/-- A Python exception observed at the executor boundary:
`type(err).__name__` and `str(err)`. -/
structure PyErr where
  typeName : String
  text : String

/-- `msg = f"{type(err).__name__}: {err}"`, truncated to 500 characters plus a
`…` when longer. -/
def truncatedErrMsg (err : PyErr) : String :=
  let msg := err.typeName ++ ": " ++ err.text
  if 500 < msg.length then String.mk (msg.data.take 500) ++ "…" else msg

/-- `_tool_error_placeholder` (agents.py): the single-element JSON payload the
executor substitutes for a failed call, per tool. -/
def toolErrorPlaceholder (tool : ToolName) (err : PyErr) : JVal :=
  let msg := truncatedErrMsg err
  match tool with
  | .search_flights =>
      .jarr [.jobj [("airline", .jstr "API_ERROR"), ("price", .jstr "N/A"),
        ("departure_time", .jstr "N/A"), ("arrival_time", .jstr "N/A"),
        ("duration", .jnull), ("is_error", .jbool true),
        ("error_message", .jstr msg)]]
  | .search_and_compare_hotels =>
      .jarr [.jobj [("name", .jstr "API_ERROR"), ("category", .jstr "N/A"),
        ("price_per_night", .jstr "N/A"), ("source", .jstr "SYSTEM"),
        ("rating", .jnull), ("is_error", .jbool true),
        ("error_message", .jstr msg)]]
  | .search_activities_by_city =>
      .jarr [.jobj [("name", .jstr "API_ERROR"),
        ("description", .jstr "Activity API error"), ("price", .jstr "N/A"),
        ("location", .jnull), ("is_error", .jbool true),
        ("error_message", .jstr msg)]]

/-- Outcome of awaiting one tool call at the executor boundary: the provider
returned offers (whose `model_dump`s serialised fine), serialisation of the
result raised, or the call itself raised. -/
inductive ToolOutcome where
  | ok (offers : List JVal)
  | serError (err : PyErr)
  | callError (err : PyErr)

/-- The `content` the executor records for one task: the serialised offer list
on success, otherwise `_tool_error_placeholder` — both `except` arms convert
the exception instead of re-raising it. -/
def runToolTaskContent (tool : ToolName) (outcome : ToolOutcome) : JVal :=
  match outcome with
  | .ok offers => .jarr offers
  | .serError e => toolErrorPlaceholder tool e
  | .callError e => toolErrorPlaceholder tool e

/-- `f"call_{tool_name}:{current_tool_key}:{i}"`. -/
def makeCallId (tool : ToolName) (key : String) (i : Nat) : String :=
  "call_" ++ toolNameStr tool ++ ":" ++ key ++ ":" ++ toString i

/-- The sequential tool loop from index `i`: one `ToolMessage` per planned
task, each tagged with that tool's current fingerprint key.  (The
`asyncio.sleep(1.2)` pacing between calls has no observable effect on the
recorded state and is not modelled.) -/
def runToolsFrom (keyOf : ToolName → String) : Nat → List (ToolName × ToolOutcome) → List Msg
  | _, [] => []
  | i, (tool, oc) :: rest =>
      .tool { name := tool, tool_call_id := makeCallId tool (keyOf tool) i,
              content := runToolTaskContent tool oc } ::
        runToolsFrom keyOf (i + 1) rest

/-- The executor over a whole task list (`for i, (task_coro, tool_name, ...)
in enumerate(tasks_and_names)`). -/
def runTools (keyOf : ToolName → String) (tasks : List (ToolName × ToolOutcome)) :
    List Msg :=
  runToolsFrom keyOf 0 tasks

/-! ### Call-id key extraction -/

lemma pySplit_nonempty (sep : Char) (l : List Char) : pySplit sep l ≠ [] := by
  cases l with
  | nil => simp [pySplit]
  | cons c rest =>
    simp only [pySplit]
    cases pySplit sep rest with
    | nil => simp
    | cons h t =>
      by_cases hc : c = sep <;> simp [hc]

/-- A string with no `':'` splits into itself. -/
lemma pySplit_no_sep (sep : Char) :
    ∀ (l : List Char), sep ∉ l → pySplit sep l = [l] := by
  intro l
  induction l with
  | nil => intro _; rfl
  | cons c rest ih =>
    intro h
    have hc : ¬c = sep := fun hc => h (hc ▸ List.mem_cons_self c rest)
    have hrest : sep ∉ rest := fun hr => h (List.mem_cons_of_mem c hr)
    simp only [pySplit, ih hrest]
    simp [hc]

/-- Splitting at the first separator after a separator-free prefix. -/
lemma pySplit_append_sep (sep : Char) :
    ∀ (a rest : List Char), sep ∉ a →
      pySplit sep (a ++ sep :: rest) = a :: pySplit sep rest := by
  intro a
  induction a with
  | nil =>
    intro rest _
    simp only [List.nil_append, pySplit]
    cases h : pySplit sep rest with
    | nil => exact absurd h (pySplit_nonempty sep rest)
    | cons x t => simp
  | cons c a' ih =>
    intro rest h
    have hc : ¬c = sep := fun hc => h (hc ▸ List.mem_cons_self c a')
    have ha' : sep ∉ a' := fun hr => h (List.mem_cons_of_mem c hr)
    simp only [List.cons_append, pySplit, List.append_eq]
    rw [ih rest ha']
    simp [hc]

/-- Every digit character of a numeral is different from `':'`. -/
lemma digitChar_ne_colon (n : Nat) : Nat.digitChar n ≠ ':' := by
  rcases Nat.lt_or_ge n 16 with h | h
  · interval_cases n <;> decide
  · have h0 : ¬n = 0 := by omega
    have h1 : ¬n = 1 := by omega
    have h2 : ¬n = 2 := by omega
    have h3 : ¬n = 3 := by omega
    have h4 : ¬n = 4 := by omega
    have h5 : ¬n = 5 := by omega
    have h6 : ¬n = 6 := by omega
    have h7 : ¬n = 7 := by omega
    have h8 : ¬n = 8 := by omega
    have h9 : ¬n = 9 := by omega
    have h10 : ¬n = 10 := by omega
    have h11 : ¬n = 11 := by omega
    have h12 : ¬n = 12 := by omega
    have h13 : ¬n = 13 := by omega
    have h14 : ¬n = 14 := by omega
    have h15 : ¬n = 15 := by omega
    simp only [Nat.digitChar, h0, h1, h2, h3, h4, h5, h6, h7, h8, h9, h10,
      h11, h12, h13, h14, h15, if_false]
    decide

lemma toDigitsCore_colonFree (b : Nat) :
    ∀ (f n : Nat) (acc : List Char), ':' ∉ acc →
      ':' ∉ Nat.toDigitsCore b f n acc := by
  intro f
  induction f with
  | zero =>
    intro n acc h
    simpa [Nat.toDigitsCore] using h
  | succ f ih =>
    intro n acc h
    simp only [Nat.toDigitsCore]
    have hcons : ':' ∉ Nat.digitChar (n % b) :: acc := by
      intro hm
      rcases List.mem_cons.1 hm with he | hm
      · exact digitChar_ne_colon (n % b) he.symm
      · exact h hm
    split
    · exact hcons
    · exact ih _ _ hcons

/-- `str(i)` for a natural number contains no `':'`. -/
lemma toString_nat_colonFree (i : Nat) : ':' ∉ (toString i).data := by
  show ':' ∉ (Nat.repr i).data
  unfold Nat.repr Nat.toDigits
  exact toDigitsCore_colonFree 10 (i + 1) i [] (by simp)

/-- The prefix `call_<tool>` contains no `':'`. -/
lemma callPrefix_colonFree (tool : ToolName) :
    ':' ∉ ("call_" ++ toolNameStr tool).data := by
  cases tool <;> decide

/-- Key extraction inverts call-id construction, for any digest value free of
`':'` (the real digest is 8 hex characters). -/
lemma extract_makeCallId (tool : ToolName) (key : String) (i : Nat)
    (hk : ':' ∉ key.data) :
    extractToolKeyFromCallId (makeCallId tool key i) = some key := by
  have hdata : (makeCallId tool key i).data =
      ("call_" ++ toolNameStr tool).data ++
        ':' :: (key.data ++ ':' :: (toString i).data) := by
    simp [makeCallId, String.data_append]
  have hne : makeCallId tool key i ≠ "" := by
    intro h
    have hd := congrArg String.data h
    rw [hdata] at hd
    cases tool <;> simp at hd
  unfold extractToolKeyFromCallId
  rw [if_neg hne, hdata, pySplit_append_sep ':' _ _ (callPrefix_colonFree tool),
    pySplit_append_sep ':' _ _ hk, pySplit_no_sep ':' _ (toString_nat_colonFree i)]
  simp

/-! ## Date gate (`_parse_ymd`, `_normalize_dates_or_ask`, agents.py)

`datetime.strptime(s, "%Y-%m-%d")` accepts exactly four year digits, one or
two month digits (1–12) and one or two day digits, validated against the
month length; `datetime` years range over `MINYEAR = 1 .. MAXYEAR = 9999`.
Date arithmetic is embedded through proleptic-Gregorian ordinals
(`0001-01-01` is day 1, as in `datetime.toordinal`). -/

def isLeapYear (y : Nat) : Bool :=
  y % 4 = 0 && (y % 100 ≠ 0 || y % 400 = 0)

/-- Cumulative day counts before each month in a non-leap year. -/
def daysBeforeMonthTable : List Nat :=
  [0, 31, 59, 90, 120, 151, 181, 212, 243, 273, 304, 334]

def daysBeforeMonth (y m : Nat) : Nat :=
  daysBeforeMonthTable.getD (m - 1) 0 +
    (if 2 < m && isLeapYear y then 1 else 0)

def daysInMonth (y m : Nat) : Nat :=
  if m = 2 then (if isLeapYear y then 29 else 28)
  else if m = 4 || m = 6 || m = 9 || m = 11 then 30
  else 31

/-- A calendar date (the `datetime` values the gate handles are pure dates). -/
structure YMD where
  year : Nat
  month : Nat
  day : Nat
deriving DecidableEq, Repr

/-- `datetime.toordinal`: proleptic-Gregorian day number, `0001-01-01 = 1`. -/
def toOrdinal (d : YMD) : Nat :=
  let py := d.year - 1
  365 * py + py / 4 - py / 100 + py / 400 + daysBeforeMonth d.year d.month + d.day

/-- Ordinal of `9999-12-31`, the largest `datetime` date. -/
def maxOrdinal : Nat := 3652059

/-- `datetime.fromordinal` (standard civil-from-days computation). -/
def fromOrdinal (n : Nat) : YMD :=
  let n0 := n - 1
  let q400 := n0 / 146097
  let r1 := n0 % 146097
  let q100 := min (r1 / 36524) 3
  let r2 := r1 - q100 * 36524
  let q4 := r2 / 1461
  let r3 := r2 % 1461
  let q1 := min (r3 / 365) 3
  let doy := r3 - q1 * 365
  let y := 400 * q400 + 100 * q100 + 4 * q4 + q1 + 1
  match [12, 11, 10, 9, 8, 7, 6, 5, 4, 3, 2, 1].find?
      (fun m => daysBeforeMonth y m ≤ doy) with
  | some m => ⟨y, m, doy - daysBeforeMonth y m + 1⟩
  | none => ⟨y, 1, doy + 1⟩

def allDigits (l : List Char) : Bool := l.all (·.isDigit)

def digitsToNat (l : List Char) : Nat :=
  l.foldl (fun acc c => 10 * acc + (c.toNat - 48)) 0

/-- `_parse_ymd` (agents.py): `datetime.strptime(date_str, "%Y-%m-%d")`,
`None` on failure. -/
def parseYMD (s : String) : Option YMD :=
  match pySplit '-' s.data with
  | [ys, ms, ds] =>
    if ys.length = 4 && allDigits ys &&
        (ms.length = 1 || ms.length = 2) && allDigits ms &&
        (ds.length = 1 || ds.length = 2) && allDigits ds then
      let y := digitsToNat ys
      let m := digitsToNat ms
      let d := digitsToNat ds
      if 1 ≤ y && 1 ≤ m && m ≤ 12 && 1 ≤ d && d ≤ daysInMonth y m then
        some ⟨y, m, d⟩
      else none
    else none
  | _ => none

/-- Left-pad a numeral with zeros (`strftime` zero-padded fields). -/
def padNat (width n : Nat) : String :=
  let s := toString n
  String.mk (List.replicate (width - s.length) '0') ++ s

/-- `strftime("%Y-%m-%d")`. -/
def formatYMD (d : YMD) : String :=
  padNat 4 d.year ++ "-" ++ padNat 2 d.month ++ "-" ++ padNat 2 d.day

/-- `dt + timedelta(days=delta)`: `none` models the `OverflowError` raised
when the result leaves the supported `datetime` range (years 1–9999). -/
def addDays (d : YMD) (delta : Int) : Option YMD :=
  let o : Int := (toOrdinal d : Int) + delta
  if 1 ≤ o ∧ o ≤ (maxOrdinal : Int) then some (fromOrdinal o.toNat) else none

/-- Python truthiness of an `Optional[int]` (`None` and `0` are falsy). -/
def intTruthy : Option Int → Bool
  | some n => !(n == 0)
  | none => false

/-- Outcome of `_normalize_dates_or_ask`: success with the (possibly
date-completed) plan, a clarifying question, or an uncaught `OverflowError`
from date arithmetic (absorbed by the caller's generic `except Exception`). -/
inductive DateGateResult where
  | ok (plan : TravelPlan)
  | ask (message : String)
  | overflow
deriving DecidableEq, Repr

/-- The final catch-all question of the date gate. -/
def askDatesMsg : String :=
  "What are your travel dates (departure & return), or at least a departure date + trip duration (days)? " ++
  "Example: a range like 2026-04-10 to 2026-04-14, or depart 2026-04-10 for 4 days."

/-- `_normalize_dates_or_ask` (agents.py): requires a destination; rejects
unparseable dates; completes `duration_days` from a departure/return pair,
`return_date` from departure + positive duration, or `departure_date` from
return + positive duration; otherwise asks. -/
def normalizeDatesOrAsk (plan : TravelPlan) : DateGateResult :=
  if plan.destination = "" then
    .ask "Where are you traveling to (destination city/airport)?"
  else
    let dep := plan.departure_date
    let ret := plan.return_date
    let dur := plan.duration_days
    let dep_dt := if strTruthy dep then parseYMD (dep.getD "") else none
    let ret_dt := if strTruthy ret then parseYMD (ret.getD "") else none
    if strTruthy dep && dep_dt.isNone then
      .ask "What is your departure date? Please use YYYY-MM-DD (e.g., 2026-04-10)."
    else if strTruthy ret && ret_dt.isNone then
      .ask "What is your return date? Please use YYYY-MM-DD (e.g., 2026-04-14)."
    else
      match dep_dt, ret_dt with
      | some ddt, some rdt =>
          if toOrdinal rdt ≤ toOrdinal ddt then
            .ask "Your return date must be after your departure date. Could you confirm the dates?"
          else if !intTruthy dur then
            .ok { plan with
              duration_days := some ((toOrdinal rdt : Int) - (toOrdinal ddt : Int)) }
          else .ok plan
      | some ddt, none =>
          if intTruthy dur then
            if dur.getD 0 ≤ 0 then
              .ask "How many days is your trip (a positive number)?"
            else
              match addDays ddt (dur.getD 0) with
              | some r => .ok { plan with return_date := some (formatYMD r) }
              | none => .overflow
          else .ask askDatesMsg
      | none, some rdt =>
          if intTruthy dur then
            if dur.getD 0 ≤ 0 then
              .ask "How many days is your trip (a positive number)?"
            else
              match addDays rdt (-(dur.getD 0)) with
              | some r => .ok { plan with departure_date := some (formatYMD r) }
              | none => .overflow
          else .ask askDatesMsg
      | none, none => .ask askDatesMsg

/-! ## Turn pipeline (`call_model_node`, agents.py)

The turn is embedded from the point where the new `TravelPlan` has been
derived (Node2: LLM parse/patch plus the deterministic backfill/intent
heuristics), since plan extraction is an external collaborator.  The
`location_to_airport_code` resolver and the three search providers are
likewise external and appear as parameters. -/

/-- Arguments of the real `search_flights` call (resolved IATA codes). -/
structure FlightSearchArgs where
  originLocationCode : String
  destinationLocationCode : String
  departureDate : String
  returnDate : Option String
  adults : Int
  currencyCode : String
  travelClass : Option String
  departureTime : Option String
  arrivalTime : Option String

/-- Arguments of the real `search_and_compare_hotels` call. -/
structure HotelSearchArgs where
  city_code : String
  check_in_date : String
  check_out_date : String
  adults : Int

/-- Arguments of the real `search_activities_by_city` call. -/
structure ActivitySearchArgs where
  city_name : String

/-- The three external search providers, as black boxes from resolved call
arguments to an executor-boundary outcome. -/
structure Providers where
  flights : FlightSearchArgs → ToolOutcome
  hotels : HotelSearchArgs → ToolOutcome
  activities : ActivitySearchArgs → ToolOutcome

/-- `key_args_update["search_flights"]` (agents.py): raw semantic values and
the final `one_way` policy. -/
def flightsUpdateKwargs (plan : TravelPlan) (one_way : Bool) : KeyKwargs :=
  { originLocationCode := plan.origin,
    destinationLocationCode := some plan.destination,
    departureDate := plan.departure_date,
    returnDate := plan.return_date,
    one_way := one_way }

/-- `key_args_update["search_and_compare_hotels"]` (agents.py). -/
def hotelsUpdateKwargs (plan : TravelPlan) : KeyKwargs :=
  { city_code := some plan.destination,
    check_in_date := plan.departure_date,
    check_out_date := plan.return_date }

/-- `key_args_update["search_activities_by_city"]` (agents.py). -/
def activitiesUpdateKwargs (plan : TravelPlan) : KeyKwargs :=
  { city_name := some plan.destination }

/-- The `last_tool_args` dict of the state, keyed by the three tools. -/
structure LastArgs where
  flights : Option KeyKwargs := none
  hotels : Option KeyKwargs := none
  activities : Option KeyKwargs := none
deriving DecidableEq, Repr

def LastArgs.get (la : LastArgs) : ToolName → Option KeyKwargs
  | .search_flights => la.flights
  | .search_and_compare_hotels => la.hotels
  | .search_activities_by_city => la.activities

/-- `reuse_tools` / `allowed_tools_for_intent` (agents.py): the same
intent-to-tools table appears twice in the source, once as lists and once as
sets. -/
def reuseTools : Intent → List ToolName
  | .flights_only => [.search_flights]
  | .hotels_only => [.search_and_compare_hotels]
  | .activities_only => [.search_activities_by_city]
  | .full_plan =>
      [.search_flights, .search_and_compare_hotels, .search_activities_by_city]

/-- `{k: v for k, v in prev_last_args.items() if k in allowed_tools_for_intent}`. -/
def filterAllowed (la : LastArgs) (intent : Intent) : LastArgs :=
  { flights :=
      if ToolName.search_flights ∈ reuseTools intent then la.flights else none,
    hotels :=
      if ToolName.search_and_compare_hotels ∈ reuseTools intent then la.hotels
      else none,
    activities :=
      if ToolName.search_activities_by_city ∈ reuseTools intent then
        la.activities
      else none }

/-- `merged_last_args = dict(prev_filtered); merged_last_args.update(upd)`. -/
def mergeArgs (base upd : LastArgs) : LastArgs :=
  { flights := match upd.flights with | some v => some v | none => base.flights,
    hotels := match upd.hotels with | some v => some v | none => base.hotels,
    activities :=
      match upd.activities with | some v => some v | none => base.activities }

/-- The origin default (agents.py): only flight-bearing intents get the
`"Shanghai"` fallback for a missing (`None` or empty) origin. -/
def applyDefaultOrigin (plan : TravelPlan) : TravelPlan :=
  if (plan.user_intent = .full_plan ∨ plan.user_intent = .flights_only) ∧
      ¬strTruthy plan.origin = true then
    { plan with origin := some "Shanghai" }
  else plan

/-- `needs_dates` (agents.py): the intent requires a date pair. -/
def needsDates (intent : Intent) : Bool :=
  intent = .full_plan || intent = .flights_only || intent = .hotels_only

/-- What the state carries into `call_model_node`. -/
structure TurnCtx where
  prevPlan : Option TravelPlan
  messages : List Msg
  lastArgs : LastArgs

/-- What `call_model_node` returns into the state (keys the claims need).
`travel_plan = none` models a returned dict without a `travel_plan` key. -/
structure TurnResult where
  newMessages : List Msg
  current_step : String
  travel_plan : Option TravelPlan
  form_to_display : Option String
  one_way : Bool
  one_way_detected : Bool
  last_tool_args : LastArgs
  tools_used : List ToolName
  executedTools : List ToolName

/-- A turn reply that only talks (ask / error / low-signal): no tools run. -/
def talkOnly (msg : String) (step : String) (plan? : Option TravelPlan)
    (ow owd : Bool) (la : LastArgs) : TurnResult :=
  { newMessages := [.ai msg], current_step := step, travel_plan := plan?,
    form_to_display := none, one_way := ow, one_way_detected := owd,
    last_tool_args := la, tools_used := [], executedTools := [] }

/-- `eff_rerun_flights` (agents.py): the raw flag intersected with the
intent's applicability. -/
def effFlights (flags : Bool × Bool × Bool) (intent : Intent) : Bool :=
  flags.1 && (intent = .full_plan || intent = .flights_only)

def effHotels (flags : Bool × Bool × Bool) (intent : Intent) : Bool :=
  flags.2.1 && (intent = .full_plan || intent = .hotels_only)

def effActivities (flags : Bool × Bool × Bool) (intent : Intent) : Bool :=
  flags.2.2 && (intent = .full_plan || intent = .activities_only)

/-- The flights guard `eff_rerun_flights and raw_origin and raw_dest and
departure_date`. -/
def doFlightsGuard (ctx : TurnCtx) (plan : TravelPlan) : Bool :=
  effFlights (computeRerunFlags ctx.prevPlan plan) plan.user_intent &&
    strTruthy plan.origin && !(plan.destination == "") &&
    strTruthy plan.departure_date

/-- The hotels guard `eff_rerun_hotels and raw_dest and departure_date and
return_date`. -/
def doHotelsGuard (ctx : TurnCtx) (plan : TravelPlan) : Bool :=
  effHotels (computeRerunFlags ctx.prevPlan plan) plan.user_intent &&
    !(plan.destination == "") && strTruthy plan.departure_date &&
    strTruthy plan.return_date

/-- The activities guard `eff_rerun_activities and raw_dest`. -/
def doActivitiesGuard (ctx : TurnCtx) (plan : TravelPlan) : Bool :=
  effActivities (computeRerunFlags ctx.prevPlan plan) plan.user_intent &&
    !(plan.destination == "")

/-- `tasks_and_names` (agents.py): flights, hotels, activities in that order,
each guarded, with provider calls on resolved arguments. -/
def buildTasks (res : String → String) (prov : Providers) (plan : TravelPlan)
    (doF doH doA : Bool) : List (ToolName × ToolOutcome) :=
  (if doF then
    [(.search_flights, prov.flights
      { originLocationCode := res (plan.origin.getD ""),
        destinationLocationCode := res plan.destination,
        departureDate := plan.departure_date.getD "",
        returnDate := plan.return_date,
        adults := plan.adults,
        currencyCode := "USD",
        travelClass := plan.travel_class,
        departureTime := plan.departure_time_pref,
        arrivalTime := plan.arrival_time_pref })]
   else []) ++
  (if doH then
    [(.search_and_compare_hotels, prov.hotels
      { city_code := plan.destination,
        check_in_date := plan.departure_date.getD "",
        check_out_date := plan.return_date.getD "",
        adults := plan.adults })]
   else []) ++
  (if doA then
    [(.search_activities_by_city,
      prov.activities { city_name := plan.destination })]
   else [])

/-- `key_args_update` (agents.py): entries only for the guarded tasks. -/
def buildUpdate (plan : TravelPlan) (ow : Bool) (doF doH doA : Bool) :
    LastArgs :=
  { flights := if doF then some (flightsUpdateKwargs plan ow) else none,
    hotels := if doH then some (hotelsUpdateKwargs plan) else none,
    activities := if doA then some (activitiesUpdateKwargs plan) else none }

/-- The per-tool fingerprint key computed inside the executor loop:
`key_kwargs` from `merged_last_args` (empty dict when absent), with the final
`one_way` policy forced for flights. -/
def execKeyOf (hash : String → String) (plan : TravelPlan) (merged : LastArgs)
    (ow : Bool) (t : ToolName) : String :=
  let kw := (merged.get t).getD {}
  let kw := if t = .search_flights then { kw with one_way := ow } else kw
  computeToolKey hash t plan kw

/-- The tail of Node 4: reuse previous results when no task is planned (and
some tool history exists), otherwise run the sequential executor. -/
def executePhaseCore (plan : TravelPlan) (ctxMsgs : List Msg)
    (merged : LastArgs) (keyOf : ToolName → String) (intent : Intent)
    (ow owd : Bool) (tasks : List (ToolName × ToolOutcome)) : TurnResult :=
  if tasks.isEmpty then
    if ctxMsgs.any (fun m => match m with | .tool _ => true | _ => false) then
      { newMessages := [], current_step := "synthesizing",
        travel_plan := some plan, form_to_display := none, one_way := ow,
        one_way_detected := owd, last_tool_args := merged,
        tools_used := reuseTools intent, executedTools := [] }
    else
      talkOnly
        "I understood your request, but there is no specific search I can perform. How else can I help?"
        "complete" (some plan) ow owd merged
  else
    { newMessages := runTools keyOf tasks, current_step := "synthesizing",
      travel_plan := some plan, form_to_display := none, one_way := ow,
      one_way_detected := owd, last_tool_args := merged,
      tools_used := reuseTools intent, executedTools := tasks.map (·.1) }

/-- Nodes 4–5 of `call_model_node`: rerun flags, effective execution set,
task building with resolved provider arguments, `last_tool_args` merging, and
either the reuse path or the sequential executor. -/
def executePhase (hash res : String → String) (prov : Providers) (ctx : TurnCtx)
    (plan : TravelPlan) (ow owd : Bool) : TurnResult :=
  let doF := doFlightsGuard ctx plan
  let doH := doHotelsGuard ctx plan
  let doA := doActivitiesGuard ctx plan
  let tasks := buildTasks res prov plan doF doH doA
  let merged := mergeArgs (filterAllowed ctx.lastArgs plan.user_intent)
    (buildUpdate plan ow doF doH doA)
  executePhaseCore plan ctx.messages merged (execKeyOf hash plan merged ow)
    plan.user_intent ow owd tasks

/-- Node 3 onwards of `call_model_node`: origin default, then the date gate
(or the destination-only gate for `activities_only`), then execution. -/
def turnAfterPlan (hash res : String → String) (prov : Providers)
    (ctx : TurnCtx) (plan0 : TravelPlan) (ow owd : Bool) : TurnResult :=
  let plan1 := applyDefaultOrigin plan0
  if needsDates plan1.user_intent then
    match normalizeDatesOrAsk plan1 with
    | .ok plan2 => executePhase hash res prov ctx plan2 ow owd
    | .ask msg => talkOnly msg "complete" (some plan1) ow owd ctx.lastArgs
    | .overflow =>
        talkOnly "I apologize, but a system error occurred. Please try again."
          "complete" none ow owd ctx.lastArgs
  else
    if plan1.destination = "" then
      talkOnly "Where are you traveling to (destination city/airport)?"
        "complete" (some plan1) ow owd ctx.lastArgs
    else executePhase hash res prov ctx plan1 ow owd

/-- `call_model_node` from the top: the one-way policy, the low-signal guard
and the customer-info gate, then the plan-dependent part.  `lowSignal` and
`oneWayDetected` are the values of `_is_low_signal_user_input(text)` and
`_is_one_way_request(text)` — pure predicates of the user text whose
definitions rest on Python Unicode builtins; every theorem below quantifies
over both, so no property depends on their values.  `customerInfoPresent` is
the truthiness of `state["customer_info"]`. -/
def callModelTurn (hash res : String → String) (prov : Providers)
    (ctx : TurnCtx) (lowSignal oneWayDetected customerInfoPresent : Bool)
    (planFromExtractor : TravelPlan) : TurnResult :=
  let one_way := false
  if lowSignal then
    talkOnly
      "Sorry - I did not catch that. Could you please repeat your request in English?"
      "complete" none one_way oneWayDetected ctx.lastArgs
  else if !customerInfoPresent then
    { newMessages := [], current_step := "collecting_info", travel_plan := none,
      form_to_display := some "customer_info", one_way := one_way,
      one_way_detected := oneWayDetected, last_tool_args := ctx.lastArgs,
      tools_used := [], executedTools := [] }
  else
    turnAfterPlan hash res prov ctx planFromExtractor one_way oneWayDetected

/-- The per-tool current fingerprints computed by `synthesize_results_node`
(an empty dict — `none` per tool — when the state has no plan). -/
def synthKeys (hash : String → String) (plan? : Option TravelPlan) (ow : Bool) :
    ToolName → Option String :=
  fun t =>
    plan?.map fun p => computeToolKey hash t p (semanticKeyKwargsForTool p t ow)

/-- The durable conversation state a turn reads and writes. -/
structure ThreadState where
  travel_plan : Option TravelPlan
  messages : List Msg
  lastArgs : LastArgs

/-- One full turn against the thread state: the user message is appended, the
node runs, and its returned keys merge into the state (`operator.add` for
`messages`; a missing `travel_plan` key leaves the stored plan unchanged). -/
def stepThread (hash res : String → String) (prov : Providers)
    (st : ThreadState) (userText : String)
    (lowSignal oneWayDetected customerInfoPresent : Bool)
    (planFromExtractor : TravelPlan) : ThreadState :=
  let msgs := st.messages ++ [.human userText]
  let r := callModelTurn hash res prov ⟨st.travel_plan, msgs, st.lastArgs⟩
    lowSignal oneWayDetected customerInfoPresent planFromExtractor
  { travel_plan :=
      match r.travel_plan with | some p => some p | none => st.travel_plan,
    messages := msgs ++ r.newMessages,
    lastArgs := r.last_tool_args }

/-! ## HTTP boundary (backend/main.py)

The module-level `jobs` dict and `waiting_for_resume` dict, and the
`/chat` and `/chat/resume` endpoint handlers up to the point where they either
raise an `HTTPException` or enqueue a background task.  `task_id` is the
freshly drawn uuid, passed as a parameter. -/

structure JobRecord where
  status : String
  thread_id : Option String
  is_continuation : Option Bool
deriving DecidableEq, Repr

/-- A background task enqueued by an endpoint handler. -/
inductive BackgroundTask where
  | runAgent (threadId message : String) (isContinuation : Bool)
  | runResume (threadId : String)
deriving DecidableEq, Repr

/-- The module-level mutable maps of main.py. -/
structure ApiState where
  jobs : List (String × JobRecord)
  waiting_for_resume : List (String × String)
deriving DecidableEq, Repr

def assocGet {α : Type} (l : List (String × α)) (k : String) : Option α :=
  l.findSome? fun p => if p.1 = k then some p.2 else none

/-- `d[k] = v` on a dict modelled as an association list. -/
def assocSet {α : Type} (l : List (String × α)) (k : String) (v : α) :
    List (String × α) :=
  (k, v) :: l.filter (fun p => ¬p.1 = k)

/-- `d.pop(k, None)`. -/
def assocDel {α : Type} (l : List (String × α)) (k : String) :
    List (String × α) :=
  l.filter (fun p => ¬p.1 = k)

/-- `if waiting_for_resume.get(request.thread_id):` — truthiness of the stored
task id (absent or empty-string ids are falsy). -/
def awaitingResume (st : ApiState) (threadId : String) : Bool :=
  match assocGet st.waiting_for_resume threadId with
  | some taskId => !(taskId == "")
  | none => false

/-- What an endpoint handler does: return a task id with an enqueued
background task, or raise an `HTTPException`. -/
inductive ApiResult where
  | ok (taskId : String) (task : BackgroundTask)
  | httpError (status : Nat) (detail : String)
deriving DecidableEq, Repr

def awaitingResumeDetail : String :=
  "This thread is waiting for a form response. Please submit via /chat/resume or /chat/customer-info to resume the interrupted session."

/-- `start_chat_task` (main.py): records the running job, rejects with 409 when
the thread awaits a resume, otherwise (after deleting the thread checkpoint
for non-continuations — external store, unobservable here) enqueues
`run_agent_in_background`. -/
def startChatTask (st : ApiState) (taskId threadId message : String)
    (isContinuation : Bool) : ApiState × ApiResult :=
  let st1 : ApiState :=
    { st with jobs :=
        assocSet st.jobs taskId (JobRecord.mk "running" (some threadId) (some isContinuation)) }
  if awaitingResume st1 threadId then
    (st1, .httpError 409 awaitingResumeDetail)
  else
    (st1, .ok taskId (.runAgent threadId message isContinuation))

/-- `resume_chat` (main.py): clears the waiting flag, records the running job
and unconditionally enqueues `run_resume_in_background` — there is no
suspension check. -/
def resumeChat (st : ApiState) (taskId threadId : String) :
    ApiState × ApiResult :=
  let st1 : ApiState :=
    { st with waiting_for_resume := assocDel st.waiting_for_resume threadId }
  let st2 : ApiState :=
    { st1 with jobs :=
        assocSet st1.jobs taskId (JobRecord.mk "running" (some threadId) (some true)) }
  (st2, .ok taskId (.runResume threadId))

/-! ## Claim theorems -/

/-- **C8 (counterexample).** The claim asserts that a resume request for an
identity that is not currently suspended is rejected (409-equivalent) rather
than executed.  On a state with no suspended thread, `/chat/resume` for
`"thread-12345"` is nevertheless accepted: the handler returns a task id and
enqueues a background resume — no 409 is ever produced by this handler. -/
theorem resume_without_suspension_is_accepted :
    awaitingResume ⟨[], []⟩ "thread-12345" = false ∧
    (resumeChat ⟨[], []⟩ "task-1" "thread-12345").2 =
      .ok "task-1" (.runResume "thread-12345") := by
  constructor
  · rfl
  · rfl

/-- **C8 (amended).** At the API boundary, a new non-resume submit for a
suspended conversation is rejected with an explicit 409 and no background work
is started; a resume request, however, is accepted unconditionally — the
waiting flag is cleared and a background resume task is enqueued whether or
not the conversation is suspended. -/
theorem suspension_protocol_at_api_boundary
    (st : ApiState) (taskId threadId message : String) (isContinuation : Bool)
    (hsusp : awaitingResume st threadId = true) :
    (startChatTask st taskId threadId message isContinuation).2 =
      .httpError 409 awaitingResumeDetail ∧
    (resumeChat st taskId threadId).2 = .ok taskId (.runResume threadId) ∧
    awaitingResume (resumeChat st taskId threadId).1 threadId = false := by
  refine ⟨?_, rfl, ?_⟩
  · simp only [startChatTask]
    split
    · rfl
    · rename_i hcond
      exact absurd hsusp hcond
  · have hfind :
        assocGet ((resumeChat st taskId threadId).1).waiting_for_resume
          threadId = none := by
      show assocGet (assocDel st.waiting_for_resume threadId) threadId = none
      unfold assocGet assocDel
      rw [List.findSome?_eq_none_iff]
      intro p hp
      have h2 := (List.mem_filter.1 hp).2
      simp only [decide_eq_true_eq] at h2
      simp [h2]
    unfold awaitingResume
    rw [hfind]

/-- **C8 (witness).** -/
theorem suspension_protocol_at_api_boundary_witness :
    awaitingResume ⟨[], [("thread-12345", "task-0")]⟩ "thread-12345" = true ∧
    ((startChatTask ⟨[], [("thread-12345", "task-0")]⟩ "task-1" "thread-12345"
        "hello" false).2 = .httpError 409 awaitingResumeDetail ∧
      (resumeChat ⟨[], [("thread-12345", "task-0")]⟩ "task-1" "thread-12345").2 =
        .ok "task-1" (.runResume "thread-12345") ∧
      awaitingResume
        (resumeChat ⟨[], [("thread-12345", "task-0")]⟩ "task-1" "thread-12345").1
        "thread-12345" = false) :=
  ⟨by decide,
   suspension_protocol_at_api_boundary ⟨[], [("thread-12345", "task-0")]⟩
     "task-1" "thread-12345" "hello" false (by decide)⟩

/-- The one-way flag returned by every branch of `executePhase` is the `ow`
it was given, and the detection flag is passed through unchanged. -/
lemma executePhase_flags_passthrough (hash res : String → String)
    (prov : Providers) (ctx : TurnCtx) (plan : TravelPlan) (ow owd : Bool) :
    (executePhase hash res prov ctx plan ow owd).one_way = ow ∧
    (executePhase hash res prov ctx plan ow owd).one_way_detected = owd := by
  refine ⟨?_, ?_⟩ <;>
  · simp only [executePhase, executePhaseCore]
    repeat' split
    all_goals rfl

/-- The one-way flag returned by every branch of `turnAfterPlan` is the `ow`
it was given, and the detection flag is passed through unchanged. -/
lemma turnAfterPlan_one_way (hash res : String → String) (prov : Providers)
    (ctx : TurnCtx) (plan0 : TravelPlan) (ow owd : Bool) :
    (turnAfterPlan hash res prov ctx plan0 ow owd).one_way = ow ∧
    (turnAfterPlan hash res prov ctx plan0 ow owd).one_way_detected = owd := by
  simp only [turnAfterPlan]
  split
  · split
    · exact executePhase_flags_passthrough hash res prov ctx _ ow owd
    · exact ⟨rfl, rfl⟩
    · exact ⟨rfl, rfl⟩
  · split
    · exact ⟨rfl, rfl⟩
    · exact executePhase_flags_passthrough hash res prov ctx _ ow owd

/-- **C9.** The implicit round-trip policy: whatever the user text is — in
particular when a one-way request was detected (`oneWayDetected = true`, which
is recorded verbatim in the result) — the final execution policy `one_way` of
the turn is `false`, and consequently the direction component (the last joined
part) of every flights fingerprint built under this turn's policy flag is the
constant `"round_trip"`. -/
theorem one_way_forced_round_trip (hash res : String → String)
    (prov : Providers) (ctx : TurnCtx)
    (lowSignal oneWayDetected customerInfoPresent : Bool)
    (planFromExtractor : TravelPlan) :
    (callModelTurn hash res prov ctx lowSignal oneWayDetected
        customerInfoPresent planFromExtractor).one_way = false ∧
    (callModelTurn hash res prov ctx lowSignal oneWayDetected
        customerInfoPresent planFromExtractor).one_way_detected =
      oneWayDetected ∧
    (∀ (p : TravelPlan) (kw : KeyKwargs),
      (toolKeyParts .search_flights p
        { kw with one_way :=
            (callModelTurn hash res prov ctx lowSignal oneWayDetected
              customerInfoPresent planFromExtractor).one_way }).getLast? =
        some "round_trip") := by
  have hmain : (callModelTurn hash res prov ctx lowSignal oneWayDetected
      customerInfoPresent planFromExtractor).one_way = false ∧
      (callModelTurn hash res prov ctx lowSignal oneWayDetected
        customerInfoPresent planFromExtractor).one_way_detected =
        oneWayDetected := by
    unfold callModelTurn
    split
    · exact ⟨rfl, rfl⟩
    · split
      · exact ⟨rfl, rfl⟩
      · exact turnAfterPlan_one_way hash res prov ctx planFromExtractor false
          oneWayDetected
  refine ⟨hmain.1, hmain.2, ?_⟩
  intro p kw
  rw [hmain.1]
  rfl

/-- The date gate never changes origin, destination or intent: a successful
normalisation only completes date fields. -/
lemma normalizeDates_ok_preserves (plan q : TravelPlan)
    (h : normalizeDatesOrAsk plan = .ok q) :
    q.origin = plan.origin ∧ q.destination = plan.destination ∧
    q.user_intent = plan.user_intent := by
  simp only [normalizeDatesOrAsk] at h
  repeat' split at h
  all_goals cases h
  all_goals exact ⟨rfl, rfl, rfl⟩

lemma executePhase_travel_plan (hash res : String → String) (prov : Providers)
    (ctx : TurnCtx) (plan : TravelPlan) (ow owd : Bool) :
    (executePhase hash res prov ctx plan ow owd).travel_plan = some plan := by
  simp only [executePhase, executePhaseCore]
  repeat' split
  all_goals rfl

lemma applyDefaultOrigin_fields (plan : TravelPlan) :
    (applyDefaultOrigin plan).user_intent = plan.user_intent ∧
    (applyDefaultOrigin plan).destination = plan.destination ∧
    (applyDefaultOrigin plan).departure_date = plan.departure_date ∧
    (applyDefaultOrigin plan).return_date = plan.return_date ∧
    (applyDefaultOrigin plan).duration_days = plan.duration_days := by
  unfold applyDefaultOrigin
  split <;> exact ⟨rfl, rfl, rfl, rfl, rfl⟩

/-- **C10.** Implicit default origin: when the derived plan's intent is
`full_plan` or `flights_only` and the origin is missing (`None` or `""`), the
origin is silently set to `"Shanghai"`; for other intents it is left as it
was.  The defaulting happens before the date gate and any search: whatever
plan the turn records carries the defaulted origin (and the unchanged intent)
— the turn never asks for an origin. -/
theorem default_origin_shanghai (hash res : String → String) (prov : Providers)
    (ctx : TurnCtx) (plan0 : TravelPlan) (ow owd : Bool) :
    ((plan0.user_intent = .full_plan ∨ plan0.user_intent = .flights_only) →
      strTruthy plan0.origin = false →
      (applyDefaultOrigin plan0).origin = some "Shanghai") ∧
    (¬(plan0.user_intent = .full_plan ∨ plan0.user_intent = .flights_only) →
      (applyDefaultOrigin plan0).origin = plan0.origin) ∧
    (∀ p, (turnAfterPlan hash res prov ctx plan0 ow owd).travel_plan = some p →
      p.origin = (applyDefaultOrigin plan0).origin ∧
      p.user_intent = plan0.user_intent) := by
  refine ⟨?_, ?_, ?_⟩
  · intro hi ho
    unfold applyDefaultOrigin
    rw [if_pos ⟨hi, by simp [ho]⟩]
  · intro hni
    unfold applyDefaultOrigin
    rw [if_neg (fun hc => hni hc.1)]
  · intro p hp
    have hint := (applyDefaultOrigin_fields plan0).1
    simp only [turnAfterPlan] at hp
    split at hp
    · split at hp
      · rename_i plan2 hgate
        rw [executePhase_travel_plan] at hp
        cases hp
        obtain ⟨h1, _, h3⟩ := normalizeDates_ok_preserves _ _ hgate
        exact ⟨h1, h3.trans hint⟩
      · cases hp
        exact ⟨rfl, hint⟩
      · cases hp
    · split at hp
      · cases hp
        exact ⟨rfl, hint⟩
      · rw [executePhase_travel_plan] at hp
        cases hp
        exact ⟨rfl, hint⟩

/-- Shared benign environment for concrete runs: an identity location
resolver and providers that return empty offer lists. -/
def okProviders : Providers :=
  ⟨fun _ => .ok [], fun _ => .ok [], fun _ => .ok []⟩

def idResolver : String → String := fun s => s

/-- A degenerate digest for concrete runs: the identity (injective). -/
def idHash : String → String := fun s => s

def w10Plan : TravelPlan :=
  ⟨none, "Tokyo", some "2026-04-10", none, some 4, 1, some "ECONOMY",
    none, none, none, .full_plan⟩

/-- The plan the turn on `w10Plan` records: origin defaulted, return date
derived. -/
def w10Final : TravelPlan :=
  ⟨some "Shanghai", "Tokyo", some "2026-04-10", some "2026-04-14", some 4, 1,
    some "ECONOMY", none, none, none, .full_plan⟩

/-- **C10 (witness).** -/
theorem default_origin_shanghai_witness :
    ((w10Plan.user_intent = .full_plan ∨ w10Plan.user_intent = .flights_only) ∧
      strTruthy w10Plan.origin = false ∧
      (applyDefaultOrigin w10Plan).origin = some "Shanghai") ∧
    ((turnAfterPlan idHash idResolver okProviders ⟨none, [], {}⟩ w10Plan false
        false).travel_plan = some w10Final ∧
      w10Final.origin = (applyDefaultOrigin w10Plan).origin ∧
      w10Final.user_intent = w10Plan.user_intent) := by
  have h := default_origin_shanghai idHash idResolver okProviders
    ⟨none, [], {}⟩ w10Plan false false
  have hplan : (turnAfterPlan idHash idResolver okProviders ⟨none, [], {}⟩
      w10Plan false false).travel_plan = some w10Final := by decide
  exact ⟨⟨Or.inl rfl, by decide, h.1 (Or.inl rfl) (by decide)⟩,
    ⟨hplan, h.2.2 w10Final hplan⟩⟩

/-- **C3.** Result-cache resolution order: for every category in the allowed
set, the resolver returns exactly what the per-category contract prescribes —
scan that category's stored records from most recent to oldest and accept the
first whose stored fingerprint key matches the current one; failing that,
accept the single most recent record for the category iff its payload consists
entirely of error placeholders (a non-empty JSON list of dicts with truthy
`is_error`); otherwise resolve nothing. -/
theorem resolver_resolution_order (ck : ToolName → Option String)
    (allowed : List ToolName) (msgs : List Msg) (t : ToolName)
    (hnd : allowed.Nodup) (ht : t ∈ allowed) :
    findResult (resolveToolResults ck allowed msgs) t =
      specResolveCategory (ck t) (toolMsgsFor msgs t) := by
  rw [resolve_eq_specResolve ck allowed msgs t hnd, if_pos ht]

/-- A stale flights record whose key does not match, then a fresh one whose
key does: the resolver must pick the matching (older) one, not the newest. -/
def w3Msgs : List Msg :=
  [.tool ⟨.search_flights, "call_search_flights:aaaa1111:0",
      .jarr [.jobj [("airline", .jstr "AF"), ("is_error", .jbool false)]]⟩,
   .human "change it",
   .tool ⟨.search_flights, "call_search_flights:bbbb2222:0",
      .jarr [.jobj [("airline", .jstr "JL"), ("is_error", .jbool false)]]⟩]

/-- **C3 (witness).** -/
theorem resolver_resolution_order_witness :
    ([ToolName.search_flights, ToolName.search_and_compare_hotels] :
        List ToolName).Nodup ∧
    ToolName.search_flights ∈
      ([ToolName.search_flights, ToolName.search_and_compare_hotels] :
        List ToolName) ∧
    findResult
      (resolveToolResults (fun _ => some "aaaa1111")
        [ToolName.search_flights, ToolName.search_and_compare_hotels] w3Msgs)
      .search_flights =
      specResolveCategory (some "aaaa1111")
        (toolMsgsFor w3Msgs .search_flights) :=
  ⟨by decide, by decide,
    resolver_resolution_order (fun _ => some "aaaa1111")
      [ToolName.search_flights, ToolName.search_and_compare_hotels] w3Msgs
      .search_flights (by decide) (by decide)⟩

/-- A plan with consistent parseable dates but a stale `duration_days = 10`
inherited in the plan (the actual date difference is 4 days). -/
def c7Plan : TravelPlan :=
  ⟨some "Shanghai", "Paris", some "2026-04-10", some "2026-04-14", some 10, 1,
    some "ECONOMY", none, none, none, .full_plan⟩

/-- **C7 (counterexample).** The claim asserts that with a parseable
departure/return pair (return after departure) the gate succeeds *filling
`duration_days` as their difference*.  The source only fills `duration_days`
when it is unset (`if not dur:`): on `c7Plan` the gate succeeds but keeps the
stale `duration_days = 10`, although the difference of the dates is 4. -/
theorem date_gate_duration_counterexample :
    normalizeDatesOrAsk c7Plan = .ok c7Plan ∧
    ((toOrdinal ⟨2026, 4, 14⟩ : Int) - (toOrdinal ⟨2026, 4, 10⟩ : Int)) = 4 ∧
    c7Plan.duration_days = some 10 := by
  refine ⟨by decide, by decide, by decide⟩

lemma parseYMD_empty : parseYMD "" = none := rfl

lemma strTruthy_of_parse {s : String} {d : YMD} (h : parseYMD s = some d) :
    strTruthy (some s) = true := by
  by_cases hs : s = ""
  · subst hs
    rw [parseYMD_empty] at h
    cases h
  · simp [strTruthy, hs]

/-- **C7 (amended).** Date gate derivation, as the code implements it.  For a
plan with non-empty destination: a parseable departure/return pair with the
return strictly after the departure succeeds, filling `duration_days` with
their difference only when `duration_days` is unset (`None` or `0`) and
keeping any previously set nonzero value; a parseable departure date plus a
positive `duration_days` with no (truthy) return date succeeds, deriving
`return_date` as departure plus that many days, provided the result stays
within the supported calendar (years 1–9999 — otherwise the turn aborts with
a generic system error); symmetrically a return date plus a positive duration
derives the departure date; and when the date gate asks instead, the turn
ends with exactly that clarifying question, executes no search, and records
the (origin-defaulted) plan with its already-resolved fields intact. -/
theorem date_gate_derivation :
    (∀ (plan : TravelPlan) (dts rts : String) (ddt rdt : YMD),
      plan.destination ≠ "" →
      plan.departure_date = some dts → parseYMD dts = some ddt →
      plan.return_date = some rts → parseYMD rts = some rdt →
      toOrdinal ddt < toOrdinal rdt →
      normalizeDatesOrAsk plan =
        .ok (if intTruthy plan.duration_days then plan
          else { plan with duration_days := some ((toOrdinal rdt : Int) - (toOrdinal ddt : Int)) })) ∧
    (∀ (plan : TravelPlan) (dts : String) (ddt : YMD) (dur : Int) (r : YMD),
      plan.destination ≠ "" →
      plan.departure_date = some dts → parseYMD dts = some ddt →
      strTruthy plan.return_date = false →
      plan.duration_days = some dur → 0 < dur →
      addDays ddt dur = some r →
      normalizeDatesOrAsk plan =
        .ok { plan with return_date := some (formatYMD r) }) ∧
    (∀ (plan : TravelPlan) (rts : String) (rdt : YMD) (dur : Int) (r : YMD),
      plan.destination ≠ "" →
      strTruthy plan.departure_date = false →
      plan.return_date = some rts → parseYMD rts = some rdt →
      plan.duration_days = some dur → 0 < dur →
      addDays rdt (-dur) = some r →
      normalizeDatesOrAsk plan =
        .ok { plan with departure_date := some (formatYMD r) }) ∧
    (∀ (hash res : String → String) (prov : Providers) (ctx : TurnCtx)
        (plan0 : TravelPlan) (ow owd : Bool) (msg : String),
      needsDates (applyDefaultOrigin plan0).user_intent = true →
      normalizeDatesOrAsk (applyDefaultOrigin plan0) = .ask msg →
      turnAfterPlan hash res prov ctx plan0 ow owd =
        talkOnly msg "complete" (some (applyDefaultOrigin plan0)) ow owd
          ctx.lastArgs) := by
  refine ⟨?_, ?_, ?_, ?_⟩
  · intro plan dts rts ddt rdt hdest hdep hddt hret hrdt hlt
    have hts := strTruthy_of_parse hddt
    have hts2 := strTruthy_of_parse hrdt
    simp only [normalizeDatesOrAsk, hdep, hret, hts, hts2, if_true, hddt, hrdt,
      if_neg hdest, Option.getD_some, Option.isNone_some, Bool.and_false,
      Bool.false_eq_true, if_false]
    rw [if_neg (by omega : ¬toOrdinal rdt ≤ toOrdinal ddt)]
    by_cases hdur : intTruthy plan.duration_days = true
    · simp [hdur]
    · simp only [Bool.not_eq_true] at hdur
      simp [hdur]
  · intro plan dts ddt dur r hdest hdep hddt hret hdur hpos hadd
    have hts := strTruthy_of_parse hddt
    have hdurT : intTruthy plan.duration_days = true := by
      rw [hdur]
      simp only [intTruthy, Bool.not_eq_true', beq_eq_false_iff_ne]
      omega
    simp only [normalizeDatesOrAsk, hdep, hret, hts, if_true, hddt,
      if_neg hdest, Option.getD_some, Option.isNone_some, Bool.and_false,
      Bool.false_eq_true, if_false, hdur, hdurT]
    rw [if_neg (by omega : ¬dur ≤ 0)]
    rw [hadd]
    have hdurT2 : intTruthy (some dur) = true := by
      simp only [intTruthy, Bool.not_eq_true', beq_eq_false_iff_ne]
      omega
    simp [hdurT2]
  · intro plan rts rdt dur r hdest hdep hret hrdt hdur hpos hadd
    have hts2 := strTruthy_of_parse hrdt
    have hdurT : intTruthy plan.duration_days = true := by
      rw [hdur]
      simp only [intTruthy, Bool.not_eq_true', beq_eq_false_iff_ne]
      omega
    simp only [normalizeDatesOrAsk, hdep, hret, hts2, if_true, hrdt,
      if_neg hdest, Option.getD_some, Option.isNone_some, Bool.and_false,
      Bool.false_eq_true, if_false, hdur, hdurT]
    rw [if_neg (by omega : ¬dur ≤ 0)]
    rw [hadd]
    have hdurT2 : intTruthy (some dur) = true := by
      simp only [intTruthy, Bool.not_eq_true', beq_eq_false_iff_ne]
      omega
    simp [hdurT2]
  · intro hash res prov ctx plan0 ow owd msg hneed hask
    simp only [turnAfterPlan, hneed, if_true, hask]

/-- Depart 2026-04-10 for 4 days, no return date yet. -/
def w7Plan : TravelPlan :=
  ⟨some "Paris", "Tokyo", some "2026-04-10", none, some 4, 1, some "ECONOMY",
    none, none, none, .full_plan⟩

/-- No dates at all: the gate must ask. -/
def w7AskPlan : TravelPlan :=
  ⟨some "Paris", "Tokyo", none, none, none, 1, some "ECONOMY",
    none, none, none, .full_plan⟩

set_option maxRecDepth 8000 in
/-- **C7 (witness).** The specification example: depart 2026-04-10 for 4 days
yields return date 2026-04-14; and a dateless plan makes the turn end with the
clarifying question, searching nothing and keeping the plan. -/
theorem date_gate_derivation_witness :
    (w7Plan.destination ≠ "" ∧ (0 : Int) < 4 ∧
      addDays ⟨2026, 4, 10⟩ 4 = some ⟨2026, 4, 14⟩ ∧
      formatYMD ⟨2026, 4, 14⟩ = "2026-04-14" ∧
      normalizeDatesOrAsk w7Plan =
        .ok { w7Plan with return_date := some (formatYMD ⟨2026, 4, 14⟩) }) ∧
    (normalizeDatesOrAsk (applyDefaultOrigin w7AskPlan) = .ask askDatesMsg ∧
      turnAfterPlan idHash idResolver okProviders ⟨none, [], {}⟩ w7AskPlan
          false false =
        talkOnly askDatesMsg "complete" (some (applyDefaultOrigin w7AskPlan))
          false false {}) := by
  refine ⟨⟨by decide, by decide, by decide, by decide, ?_⟩, ⟨by decide, ?_⟩⟩
  · exact date_gate_derivation.2.1 w7Plan "2026-04-10" ⟨2026, 4, 10⟩ 4
      ⟨2026, 4, 14⟩ (by decide) rfl (by decide) (by decide) rfl (by decide)
      (by decide)
  · exact date_gate_derivation.2.2.2 idHash idResolver okProviders
      ⟨none, [], {}⟩ w7AskPlan false false askDatesMsg (by decide) (by decide)

/-- Erase tool-message payloads, keeping names and call ids (hence the
recorded fingerprint keys). -/
def Msg.eraseToolContent : Msg → Msg
  | .tool tm => .tool { tm with content := .jnull }
  | m => m

/-- Everything a turn records except provider payload contents. -/
def TurnResult.shape (r : TurnResult) : TurnResult :=
  { r with newMessages := r.newMessages.map Msg.eraseToolContent }

lemma runToolsFrom_shape (keyOf : ToolName → String) :
    ∀ (i : Nat) (tasks1 tasks2 : List (ToolName × ToolOutcome)),
      tasks1.map Prod.fst = tasks2.map Prod.fst →
      (runToolsFrom keyOf i tasks1).map Msg.eraseToolContent =
        (runToolsFrom keyOf i tasks2).map Msg.eraseToolContent := by
  intro i tasks1
  induction tasks1 generalizing i with
  | nil =>
    intro tasks2 h
    cases tasks2 with
    | nil => rfl
    | cons b l => cases h
  | cons a l ih =>
    intro tasks2 h
    cases tasks2 with
    | nil => cases h
    | cons b l2 =>
      simp only [List.map_cons, List.cons.injEq] at h
      obtain ⟨h1, h2⟩ := h
      simp only [runToolsFrom, List.map_cons, Msg.eraseToolContent, h1]
      rw [ih (i + 1) l2 h2]

lemma buildTasks_fst (res : String → String) (prov : Providers)
    (plan : TravelPlan) (doF doH doA : Bool) :
    (buildTasks res prov plan doF doH doA).map Prod.fst =
      (if doF then [ToolName.search_flights] else []) ++
      (if doH then [ToolName.search_and_compare_hotels] else []) ++
      (if doA then [ToolName.search_activities_by_city] else []) := by
  unfold buildTasks
  cases doF <;> cases doH <;> cases doA <;> rfl

lemma executePhaseCore_shape (plan : TravelPlan) (ctxMsgs : List Msg)
    (merged : LastArgs) (keyOf : ToolName → String) (intent : Intent)
    (ow owd : Bool) (tasks1 tasks2 : List (ToolName × ToolOutcome))
    (h : tasks1.map Prod.fst = tasks2.map Prod.fst) :
    (executePhaseCore plan ctxMsgs merged keyOf intent ow owd tasks1).shape =
      (executePhaseCore plan ctxMsgs merged keyOf intent ow owd tasks2).shape := by
  have hempty : tasks1.isEmpty = tasks2.isEmpty := by
    have := congrArg List.length h
    simp only [List.length_map] at this
    cases tasks1 <;> cases tasks2 <;> simp_all
  unfold executePhaseCore
  rw [hempty]
  by_cases he : tasks2.isEmpty = true
  · simp [he]
  · simp only [he, Bool.false_eq_true, if_false]
    unfold TurnResult.shape runTools
    simp only [TurnResult.mk.injEq]
    simp [runToolsFrom_shape keyOf 0 tasks1 tasks2 h, h]

/-- A resolution change alone changes nothing the turn records except the
payload contents coming back from the providers. -/
lemma executePhase_shape_res (hash res1 res2 : String → String)
    (prov : Providers) (ctx : TurnCtx) (plan : TravelPlan) (ow owd : Bool) :
    (executePhase hash res1 prov ctx plan ow owd).shape =
      (executePhase hash res2 prov ctx plan ow owd).shape := by
  unfold executePhase
  apply executePhaseCore_shape
  rw [buildTasks_fst, buildTasks_fst]

lemma turnAfterPlan_shape_res (hash res1 res2 : String → String)
    (prov : Providers) (ctx : TurnCtx) (plan0 : TravelPlan) (ow owd : Bool) :
    (turnAfterPlan hash res1 prov ctx plan0 ow owd).shape =
      (turnAfterPlan hash res2 prov ctx plan0 ow owd).shape := by
  simp only [turnAfterPlan]
  split
  · split
    · exact executePhase_shape_res hash res1 res2 prov ctx _ ow owd
    · rfl
    · rfl
  · split
    · rfl
    · exact executePhase_shape_res hash res1 res2 prov ctx _ ow owd

lemma pyOr2_self (o : Option String) : pyOr2 o o = pyOrEmpty o := by
  cases o with
  | none => rfl
  | some s =>
    by_cases h : s = "" <;> simp [pyOr2, pyOrEmpty, strTruthy, h]

/-- The kwargs used at execution time for a tool updated this turn reproduce
the semantic fingerprint kwargs: both key strings are identical. -/
lemma execUpdate_key_eq_semantic (plan : TravelPlan) (ow : Bool) :
    computeToolKeyString .search_flights plan
        { flightsUpdateKwargs plan ow with one_way := ow } =
      computeToolKeyString .search_flights plan
        (semanticKeyKwargsForTool plan .search_flights ow) ∧
    computeToolKeyString .search_and_compare_hotels plan
        (hotelsUpdateKwargs plan) =
      computeToolKeyString .search_and_compare_hotels plan
        (semanticKeyKwargsForTool plan .search_and_compare_hotels ow) ∧
    computeToolKeyString .search_activities_by_city plan
        (activitiesUpdateKwargs plan) =
      computeToolKeyString .search_activities_by_city plan
        (semanticKeyKwargsForTool plan .search_activities_by_city ow) := by
  refine ⟨?_, ?_, ?_⟩ <;>
    simp only [computeToolKeyString, toolKeyParts, semanticKeyKwargsForTool,
      flightsUpdateKwargs, hotelsUpdateKwargs, activitiesUpdateKwargs,
      pyOr2_self, pyOr2_some_self]

/-- **C2.** Fingerprint stability under resolution.  (i) For any two
location-resolution functions, the turn records exactly the same shape —
message names, `call_<tool>:<key>:<i>` ids (hence fingerprints),
`last_tool_args`, executed set — differing at most in provider payloads: a
resolution change alone is never a plan change.  (ii) The fingerprint is a
function of the category's semantic dependency fields only: two plans that
agree on them (whatever their other fields) produce identical fingerprints.
(iii) The execution-time key kwargs reproduce the semantic kwargs, so stored
and looked-up fingerprints coincide by construction. -/
theorem fingerprint_semantic_stability :
    (∀ (hash res1 res2 : String → String) (prov : Providers) (ctx : TurnCtx)
        (ls owd cip : Bool) (plan : TravelPlan),
      (callModelTurn hash res1 prov ctx ls owd cip plan).shape =
        (callModelTurn hash res2 prov ctx ls owd cip plan).shape) ∧
    (∀ (hash : String → String) (tool : ToolName) (p q : TravelPlan) (ow : Bool),
      (tool = .search_flights → flightsKeyFields p = flightsKeyFields q) →
      (tool = .search_and_compare_hotels →
        hotelsKeyFields p = hotelsKeyFields q) →
      (tool = .search_activities_by_city →
        activitiesKeyFields p = activitiesKeyFields q) →
      computeToolKey hash tool p (semanticKeyKwargsForTool p tool ow) =
        computeToolKey hash tool q (semanticKeyKwargsForTool q tool ow)) ∧
    (∀ (plan : TravelPlan) (ow : Bool),
      computeToolKeyString .search_flights plan
          { flightsUpdateKwargs plan ow with one_way := ow } =
        computeToolKeyString .search_flights plan
          (semanticKeyKwargsForTool plan .search_flights ow)) := by
  refine ⟨?_, ?_, ?_⟩
  · intro hash res1 res2 prov ctx ls owd cip plan
    unfold callModelTurn
    split
    · rfl
    · split
      · rfl
      · exact turnAfterPlan_shape_res hash res1 res2 prov ctx plan false owd
  · intro hash tool p q ow hf hh ha
    unfold computeToolKey computeToolKeyString
    rw [semantic_key_parts_eq tool p q ow hf hh ha]
  · intro plan ow
    exact (execUpdate_key_eq_semantic plan ow).1

/-- **C2 (witness).** Two resolutions of the typed city names (identity vs a
code-mapping resolver) leave the recorded turn shape identical; and two plans
equal on flight dependency fields but with different budgets fingerprint
identically. -/
theorem fingerprint_semantic_stability_witness :
    (callModelTurn idHash idResolver okProviders ⟨none, [], {}⟩ false false
        true w10Plan).shape =
      (callModelTurn idHash (fun s => s ++ "-IATA") okProviders ⟨none, [], {}⟩
        false false true w10Plan).shape ∧
    ((ToolName.search_flights = ToolName.search_flights →
        flightsKeyFields w10Final =
          flightsKeyFields { w10Final with total_budget := some 999 }) ∧
      computeToolKey idHash .search_flights w10Final
          (semanticKeyKwargsForTool w10Final .search_flights false) =
        computeToolKey idHash .search_flights
          { w10Final with total_budget := some 999 }
          (semanticKeyKwargsForTool { w10Final with total_budget := some 999 }
            .search_flights false)) := by
  refine ⟨?_, ⟨fun _ => rfl, ?_⟩⟩
  · exact fingerprint_semantic_stability.1 idHash idResolver
      (fun s => s ++ "-IATA") okProviders ⟨none, [], {}⟩ false false true
      w10Plan
  · exact fingerprint_semantic_stability.2.1 idHash .search_flights w10Final
      { w10Final with total_budget := some 999 } false (fun _ => rfl)
      (fun h => by cases h) (fun h => by cases h)

lemma truncatedErrMsg_length (e : PyErr) :
    (truncatedErrMsg e).length ≤
      max ((e.typeName ++ ": " ++ e.text).length) 501 := by
  simp only [truncatedErrMsg]
  split
  · have h1 : (String.mk ((e.typeName ++ ": " ++ e.text).data.take 500) ++
        "…").length = ((e.typeName ++ ": " ++ e.text).data.take 500).length + 1 := by
      rw [String.length_append, String.length_mk]
      rfl
    rw [h1]
    have := List.length_take_le 500 (e.typeName ++ ": " ++ e.text).data
    omega
  · exact le_max_left _ _

lemma runToolsFrom_length (keyOf : ToolName → String) :
    ∀ (i : Nat) (tasks : List (ToolName × ToolOutcome)),
      (runToolsFrom keyOf i tasks).length = tasks.length := by
  intro i tasks
  induction tasks generalizing i with
  | nil => rfl
  | cons a l ih => simp [runToolsFrom, ih]

lemma runToolsFrom_set_get (keyOf : ToolName → String) :
    ∀ (tasks : List (ToolName × ToolOutcome)) (i j k : Nat)
      (task' : ToolName × ToolOutcome), k ≠ j →
      (runToolsFrom keyOf i (tasks.set j task'))[k]? =
        (runToolsFrom keyOf i tasks)[k]? := by
  intro tasks
  induction tasks with
  | nil => intro i j k task' _; rfl
  | cons a l ih =>
    intro i j k task' hk
    cases j with
    | zero =>
      cases k with
      | zero => exact absurd rfl hk
      | succ k' => simp [runToolsFrom, List.set]
    | succ j' =>
      cases k with
      | zero => simp [runToolsFrom, List.set]
      | succ k' =>
        simp only [List.set, runToolsFrom, List.getElem?_cons_succ]
        exact ih (i + 1) j' k' task' (fun h => hk (by omega))

lemma toolMsgsFor_append (l1 l2 : List Msg) (t : ToolName) :
    toolMsgsFor (l1 ++ l2) t = toolMsgsFor l1 t ++ toolMsgsFor l2 t := by
  unfold toolMsgsFor
  exact List.filterMap_append _ _ _

lemma toolMsgsFor_runToolsFrom_not_mem (keyOf : ToolName → String)
    (t : ToolName) :
    ∀ (tasks : List (ToolName × ToolOutcome)) (i : Nat),
      t ∉ tasks.map Prod.fst →
      toolMsgsFor (runToolsFrom keyOf i tasks) t = [] := by
  intro tasks
  induction tasks with
  | nil => intro i _; rfl
  | cons a l ih =>
    intro i hmem
    have hne : a.1 ≠ t := by
      intro h
      exact hmem (h ▸ List.mem_map_of_mem Prod.fst (List.mem_cons_self a l))
    obtain ⟨nm, oc⟩ := a
    simp only [runToolsFrom, toolMsgsFor, List.filterMap_cons]
    simp only at hne
    simp only [hne, if_false]
    exact ih (i + 1) (fun h => hmem (List.mem_cons_of_mem _ h))

lemma toolMsgsFor_cons (m : Msg) (rest : List Msg) (t : ToolName) :
    toolMsgsFor (m :: rest) t =
      match toolNamed t m with
      | some tm => tm :: toolMsgsFor rest t
      | none => toolMsgsFor rest t := by
  cases h : toolNamed t m <;>
    simp [toolMsgsFor_eq_filterMap, List.filterMap_cons, h]

lemma toolMsgsFor_runToolsFrom_single (keyOf : ToolName → String)
    (t : ToolName) (oc : ToolOutcome) :
    ∀ (pre post : List (ToolName × ToolOutcome)) (i : Nat),
      t ∉ pre.map Prod.fst → t ∉ post.map Prod.fst →
      toolMsgsFor (runToolsFrom keyOf i (pre ++ (t, oc) :: post)) t =
        [⟨t, makeCallId t (keyOf t) (i + pre.length), runToolTaskContent t oc⟩] := by
  intro pre
  induction pre with
  | nil =>
    intro post i _ hpost
    rw [List.nil_append]
    show toolMsgsFor
      (Msg.tool ⟨t, makeCallId t (keyOf t) i, runToolTaskContent t oc⟩ ::
        runToolsFrom keyOf (i + 1) post) t = _
    rw [toolMsgsFor_cons]
    simp only [toolNamed, if_pos rfl]
    rw [toolMsgsFor_runToolsFrom_not_mem keyOf t post (i + 1) hpost]
    simp
  | cons a l ih =>
    intro post i hpre hpost
    have hne : a.1 ≠ t := by
      intro h
      exact hpre (h ▸ List.mem_map_of_mem Prod.fst (List.mem_cons_self a l))
    obtain ⟨nm, oc'⟩ := a
    rw [List.cons_append]
    show toolMsgsFor
      (Msg.tool ⟨nm, makeCallId nm (keyOf nm) i, runToolTaskContent nm oc'⟩ ::
        runToolsFrom keyOf (i + 1) (l ++ (t, oc) :: post)) t = _
    rw [toolMsgsFor_cons]
    simp only at hne
    simp only [toolNamed, hne, if_false]
    rw [ih post (i + 1) (fun h => hpre (List.mem_cons_of_mem _ h)) hpost]
    have harith : i + 1 + l.length = i + ((nm, oc') :: l).length := by
      simp only [List.length_cons]
      omega
    rw [harith]

/-- **C6.** Executor error isolation.  (i) The executor is total: every
planned call yields exactly one recorded message, raising nothing.  (ii) Both
failure arms (call error and serialisation error) convert the exception into
`_tool_error_placeholder`: a single-element payload whose one entry is a dict
with `is_error` true and a human-readable message capped near 500 characters
(at most `max (full message length) 501`, and exactly ≤ 501 once truncation
applies); the payload registers as all-error for the degradation logic.
(iii) Replacing any single task's outcome (e.g. by a failure) leaves every
other position's recorded message unchanged.  (iv) A successful category in
the same turn remains selectable: the resolver picks its fresh payload
whatever happened to the other tasks. -/
theorem executor_error_isolation :
    (∀ (keyOf : ToolName → String) (i : Nat)
        (tasks : List (ToolName × ToolOutcome)),
      (runToolsFrom keyOf i tasks).length = tasks.length) ∧
    (∀ (tool : ToolName) (e : PyErr),
      runToolTaskContent tool (.callError e) = toolErrorPlaceholder tool e ∧
      runToolTaskContent tool (.serError e) = toolErrorPlaceholder tool e ∧
      (∃ fs, toolErrorPlaceholder tool e = .jarr [.jobj fs] ∧
        jGet fs "is_error" = some (.jbool true) ∧
        jGet fs "error_message" = some (.jstr (truncatedErrMsg e))) ∧
      (truncatedErrMsg e).length ≤
        max ((e.typeName ++ ": " ++ e.text).length) 501 ∧
      isAllErrorPlaceholders (toolErrorPlaceholder tool e) = true) ∧
    (∀ (keyOf : ToolName → String) (i j k : Nat)
        (tasks : List (ToolName × ToolOutcome))
        (task' : ToolName × ToolOutcome), k ≠ j →
      (runToolsFrom keyOf i (tasks.set j task'))[k]? =
        (runToolsFrom keyOf i tasks)[k]?) ∧
    (∀ (ck : ToolName → Option String) (allowed : List ToolName)
        (prior : List Msg) (keyOf : ToolName → String)
        (pre post : List (ToolName × ToolOutcome)) (t : ToolName)
        (offers : List JVal),
      allowed.Nodup → t ∈ allowed →
      t ∉ pre.map Prod.fst → t ∉ post.map Prod.fst →
      ':' ∉ (keyOf t).data → keyOf t ≠ "" → ck t = some (keyOf t) →
      findResult
        (resolveToolResults ck allowed
          (prior ++ runTools keyOf (pre ++ (t, ToolOutcome.ok offers) :: post)))
        t = some (.jarr offers)) := by
  refine ⟨runToolsFrom_length, ?_, ?_, ?_⟩
  · intro tool e
    refine ⟨?_, ?_, ?_, truncatedErrMsg_length e, ?_⟩
    · rfl
    · rfl
    · cases tool
      · exact ⟨_, rfl, rfl, rfl⟩
      · exact ⟨_, rfl, rfl, rfl⟩
      · exact ⟨_, rfl, rfl, rfl⟩
    · cases tool <;> rfl
  · intro keyOf i j k tasks task' hk
    exact runToolsFrom_set_get keyOf tasks i j k task' hk
  · intro ck allowed prior keyOf pre post t offers hnd ht hpre hpost hcolon
      hne hck
    rw [resolve_eq_specResolve ck allowed _ t hnd, if_pos ht]
    unfold specResolveCategory runTools
    rw [toolMsgsFor_append, toolMsgsFor_runToolsFrom_single keyOf t _ pre post
      0 hpre hpost]
    have hmatch : storedKeyMatches (makeCallId t (keyOf t) (0 + pre.length))
        (ck t) = true := by
      unfold storedKeyMatches
      rw [extract_makeCallId t (keyOf t) (0 + pre.length) hcolon, hck]
      simp [hne]
    rw [List.reverse_append]
    simp only [List.reverse_cons, List.reverse_nil, List.nil_append,
      List.cons_append, List.find?]
    rw [hmatch]
    rfl

def wHotelOffer : JVal := .jobj [("name", .jstr "Grand Hotel")]

def wErr : PyErr := ⟨"ConnectionError", "boom"⟩

/-- **C6 (witness).** A failed flights call next to a successful hotels call:
replacing the flights outcome leaves the hotels message untouched, and the
hotels payload is still selected by the resolver. -/
theorem executor_error_isolation_witness :
    ((1 : Nat) ≠ 0 ∧
      (runToolsFrom (fun _ => "abcd1234") 0
          ([(ToolName.search_flights, ToolOutcome.ok []),
            (ToolName.search_and_compare_hotels,
              ToolOutcome.ok [wHotelOffer])].set 0
            (ToolName.search_flights, ToolOutcome.callError wErr)))[1]? =
        (runToolsFrom (fun _ => "abcd1234") 0
          [(ToolName.search_flights, ToolOutcome.ok []),
            (ToolName.search_and_compare_hotels,
              ToolOutcome.ok [wHotelOffer])])[1]?) ∧
    findResult
      (resolveToolResults (fun _ => some "abcd1234")
        [ToolName.search_flights, ToolName.search_and_compare_hotels]
        ([] ++ runTools (fun _ => "abcd1234")
          ([(ToolName.search_flights, ToolOutcome.callError wErr)] ++
            (ToolName.search_and_compare_hotels,
              ToolOutcome.ok [wHotelOffer]) :: [])))
      ToolName.search_and_compare_hotels = some (.jarr [wHotelOffer]) := by
  refine ⟨⟨by decide, ?_⟩, ?_⟩
  · exact executor_error_isolation.2.2.1 (fun _ => "abcd1234") 0 0 1
      [(ToolName.search_flights, ToolOutcome.ok []),
        (ToolName.search_and_compare_hotels, ToolOutcome.ok [wHotelOffer])]
      (ToolName.search_flights, ToolOutcome.callError wErr) (by decide)
  · exact executor_error_isolation.2.2.2 (fun _ => some "abcd1234")
      [ToolName.search_flights, ToolName.search_and_compare_hotels] []
      (fun _ => "abcd1234")
      [(ToolName.search_flights, ToolOutcome.callError wErr)] []
      ToolName.search_and_compare_hotels [wHotelOffer] (by decide) (by decide)
      (by decide) (by decide) (by decide) (by decide) rfl

/-! ### Separator-free key strings determine their parts -/

lemma pyOrEmpty_some (s : String) : pyOrEmpty (some s) = s := by
  by_cases h : s = "" <;> simp [pyOrEmpty, strTruthy, h]

lemma append_pipe_inj :
    ∀ (a1 a2 r1 r2 : List Char), '|' ∉ a1 → '|' ∉ a2 →
      a1 ++ '|' :: r1 = a2 ++ '|' :: r2 → a1 = a2 ∧ r1 = r2 := by
  intro a1
  induction a1 with
  | nil =>
    intro a2 r1 r2 _ h2 heq
    cases a2 with
    | nil => simpa using heq
    | cons b bs =>
      simp only [List.nil_append, List.cons_append, List.cons.injEq] at heq
      exact absurd (heq.1 ▸ List.mem_cons_self b bs) h2
  | cons c cs ih =>
    intro a2 r1 r2 h1 h2 heq
    cases a2 with
    | nil =>
      simp only [List.cons_append, List.nil_append, List.cons.injEq] at heq
      exact absurd (heq.1 ▸ List.mem_cons_self c cs) h1
    | cons b bs =>
      simp only [List.cons_append, List.cons.injEq] at heq
      obtain ⟨hcb, htail⟩ := heq
      have h1' : '|' ∉ cs := fun h => h1 (List.mem_cons_of_mem c h)
      have h2' : '|' ∉ bs := fun h => h2 (List.mem_cons_of_mem b h)
      obtain ⟨he, hr⟩ := ih bs r1 r2 h1' h2' htail
      exact ⟨by rw [hcb, he], hr⟩

lemma joinParts_cons_cons (a b : String) (l : List String) :
    joinParts (a :: b :: l) = a ++ "|" ++ joinParts (b :: l) := rfl

lemma data_append_pipe (a c : String) :
    (a ++ "|" ++ c).data = a.data ++ '|' :: c.data := by
  simp [String.data_append]

lemma joinParts_inj :
    ∀ (l1 l2 : List String), (∀ s ∈ l1, '|' ∉ s.data) →
      (∀ s ∈ l2, '|' ∉ s.data) → l1.length = l2.length →
      joinParts l1 = joinParts l2 → l1 = l2 := by
  intro l1
  induction l1 with
  | nil =>
    intro l2 _ _ hlen _
    cases l2 with
    | nil => rfl
    | cons b bs => cases hlen
  | cons a l ih =>
    intro l2 h1 h2 hlen heq
    cases l2 with
    | nil => cases hlen
    | cons b bs =>
      cases l with
      | nil =>
        cases bs with
        | nil => simpa [joinParts] using heq
        | cons b2 bs2 => cases hlen
      | cons a2 as2 =>
        cases bs with
        | nil => cases hlen
        | cons b2 bs2 =>
          rw [joinParts_cons_cons, joinParts_cons_cons] at heq
          have hdata := congrArg String.data heq
          rw [data_append_pipe, data_append_pipe] at hdata
          have ha := h1 a (List.mem_cons_self a _)
          have hb := h2 b (List.mem_cons_self b _)
          obtain ⟨he, hr⟩ := append_pipe_inj a.data b.data _ _ ha hb hdata
          have hab : a = b := String.ext he
          have hrest := ih (b2 :: bs2)
            (fun s hs => h1 s (List.mem_cons_of_mem a hs))
            (fun s hs => h2 s (List.mem_cons_of_mem b hs))
            (by simpa using hlen) (String.ext hr)
          rw [hab, hrest]

/-- Pipe-freeness of the semantic key fields of a plan. -/
def pipeFreeOpt : Option String → Prop
  | some s => '|' ∉ s.data
  | none => True

instance : ∀ o, Decidable (pipeFreeOpt o) := by
  intro o
  cases o <;> simp only [pipeFreeOpt] <;> infer_instance

def planKeyFieldsPipeFree (p : TravelPlan) : Prop :=
  '|' ∉ p.destination.data ∧ pipeFreeOpt p.origin ∧
    pipeFreeOpt p.departure_date ∧ pipeFreeOpt p.return_date ∧
    pipeFreeOpt p.travel_class ∧ pipeFreeOpt p.departure_time_pref ∧
    pipeFreeOpt p.arrival_time_pref

instance (p : TravelPlan) : Decidable (planKeyFieldsPipeFree p) := by
  unfold planKeyFieldsPipeFree
  infer_instance

lemma pipeFree_pyOrEmpty (o : Option String) (h : pipeFreeOpt o) :
    '|' ∉ (pyOrEmpty o).data := by
  cases o with
  | none => simp [pyOrEmpty, strTruthy]
  | some s =>
    rw [pyOrEmpty_some]
    exact h

lemma digitChar_ne_pipe (n : Nat) : Nat.digitChar n ≠ '|' := by
  rcases Nat.lt_or_ge n 16 with h | h
  · interval_cases n <;> decide
  · have h0 : ¬n = 0 := by omega
    have h1 : ¬n = 1 := by omega
    have h2 : ¬n = 2 := by omega
    have h3 : ¬n = 3 := by omega
    have h4 : ¬n = 4 := by omega
    have h5 : ¬n = 5 := by omega
    have h6 : ¬n = 6 := by omega
    have h7 : ¬n = 7 := by omega
    have h8 : ¬n = 8 := by omega
    have h9 : ¬n = 9 := by omega
    have h10 : ¬n = 10 := by omega
    have h11 : ¬n = 11 := by omega
    have h12 : ¬n = 12 := by omega
    have h13 : ¬n = 13 := by omega
    have h14 : ¬n = 14 := by omega
    have h15 : ¬n = 15 := by omega
    simp only [Nat.digitChar, h0, h1, h2, h3, h4, h5, h6, h7, h8, h9, h10,
      h11, h12, h13, h14, h15, if_false]
    decide

lemma toDigitsCore_pipeFree (b : Nat) :
    ∀ (f n : Nat) (acc : List Char), '|' ∉ acc →
      '|' ∉ Nat.toDigitsCore b f n acc := by
  intro f
  induction f with
  | zero =>
    intro n acc h
    simpa [Nat.toDigitsCore] using h
  | succ f ih =>
    intro n acc h
    simp only [Nat.toDigitsCore]
    have hcons : '|' ∉ Nat.digitChar (n % b) :: acc := by
      intro hm
      rcases List.mem_cons.1 hm with he | hm
      · exact digitChar_ne_pipe (n % b) he.symm
      · exact h hm
    split
    · exact hcons
    · exact ih _ _ hcons

lemma toString_nat_pipeFree (i : Nat) : '|' ∉ (Nat.repr i).data := by
  unfold Nat.repr Nat.toDigits
  exact toDigitsCore_pipeFree 10 (i + 1) i [] (by simp)

lemma toString_int_pipeFree (i : Int) : '|' ∉ (toString i).data := by
  show '|' ∉ (Int.repr i).data
  cases i with
  | ofNat m => exact toString_nat_pipeFree m
  | negSucc m =>
    show '|' ∉ ("-" ++ Nat.repr (m + 1)).data
    rw [String.data_append]
    intro hmem
    rcases List.mem_append.1 hmem with h | h
    · simp at h
    · exact toString_nat_pipeFree (m + 1) h

lemma toolKeyParts_pipeFree (tool : ToolName) (p : TravelPlan) (ow : Bool)
    (h : planKeyFieldsPipeFree p) :
    ∀ s ∈ toolKeyParts tool p (semanticKeyKwargsForTool p tool ow),
      '|' ∉ s.data := by
  obtain ⟨hd, ho, hdep, hret, hcl, hdp, hap⟩ := h
  intro s hs
  cases tool <;>
    simp only [toolKeyParts, semanticKeyKwargsForTool, pyOr2_some_self,
      pyOr2_self, pyOrEmpty_some, List.mem_cons, List.mem_singleton,
      List.not_mem_nil, or_false] at hs
  · rcases hs with rfl | rfl | rfl | rfl | rfl | rfl | rfl | rfl | rfl
    · exact pipeFree_pyOrEmpty _ ho
    · exact hd
    · exact pipeFree_pyOrEmpty _ hdep
    · exact pipeFree_pyOrEmpty _ hret
    · exact toString_int_pipeFree p.adults
    · exact pipeFree_pyOrEmpty _ hcl
    · exact pipeFree_pyOrEmpty _ hdp
    · exact pipeFree_pyOrEmpty _ hap
    · cases ow <;> simp
  · rcases hs with rfl | rfl | rfl | rfl
    · exact hd
    · exact pipeFree_pyOrEmpty _ hdep
    · exact pipeFree_pyOrEmpty _ hret
    · exact toString_int_pipeFree p.adults
  · rcases hs with rfl
    exact hd

/-- Equal semantic key strings force equal destinations (pipe-free fields). -/
lemma keyString_eq_dest_eq (tool : ToolName) (p q : TravelPlan) (ow : Bool)
    (hp : planKeyFieldsPipeFree p) (hq : planKeyFieldsPipeFree q)
    (heq : computeToolKeyString tool p (semanticKeyKwargsForTool p tool ow) =
      computeToolKeyString tool q (semanticKeyKwargsForTool q tool ow)) :
    p.destination = q.destination := by
  have hparts := joinParts_inj
    (toolKeyParts tool p (semanticKeyKwargsForTool p tool ow))
    (toolKeyParts tool q (semanticKeyKwargsForTool q tool ow))
    (toolKeyParts_pipeFree tool p ow hp) (toolKeyParts_pipeFree tool q ow hq)
    (by cases tool <;> rfl) heq
  cases tool <;>
    simp only [toolKeyParts, semanticKeyKwargsForTool, pyOr2_self,
      pyOrEmpty_some, List.cons.injEq] at hparts
  · exact hparts.2.1
  · exact hparts.1
  · exact hparts.1

def c5Old : TravelPlan :=
  ⟨some "Shanghai", "Paris", some "2026-04-10", some "2026-04-14", some 4, 1,
    some "ECONOMY", none, none, none, .full_plan⟩

def c5New : TravelPlan :=
  ⟨some "Shanghai", "Tokyo", some "2026-04-10", some "2026-04-14", some 4, 1,
    some "ECONOMY", none, none, none, .full_plan⟩

/-- The flights fingerprint of `c5Old` under the identity digest. -/
def c5OldKey : String :=
  "Shanghai|Paris|2026-04-10|2026-04-14|1|ECONOMY|||round_trip"

def c5ErrContent : JVal :=
  .jarr [.jobj [("airline", .jstr "API_ERROR"), ("is_error", .jbool true),
    ("error_message", .jstr "AmadeusError: upstream 500")]]

def c5Msgs : List Msg :=
  [.tool ⟨.search_flights, "call_search_flights:" ++ c5OldKey ++ ":0",
    c5ErrContent⟩]

/-- **C5 (counterexample).** The claim says a record fingerprinted under the
old destination is *never* selected after the destination changes.  But the
degraded error fallback of `synthesize_results_node` does exactly that: with
the destination changed from Paris to Tokyo, the stale flights record —
fingerprinted under Paris and holding only error placeholders — is selected
for the new turn. -/
theorem stale_error_record_selected_counterexample :
    c5Old.destination ≠ c5New.destination ∧
    extractToolKeyFromCallId ("call_search_flights:" ++ c5OldKey ++ ":0") =
      some (computeToolKey idHash .search_flights c5Old
        (semanticKeyKwargsForTool c5Old .search_flights false)) ∧
    findResult
      (resolveToolResults (synthKeys idHash (some c5New) false)
        [ToolName.search_flights] c5Msgs) .search_flights =
      some c5ErrContent := by
  refine ⟨by decide, by decide, rfl⟩

/-- **C5 (amended).** No stale-plan reuse through fingerprint matching: if the
destination differs between the old and the new plan (their semantic key
fields containing no `'|'`, and the digest being injective), then no stored
record fingerprinted under the old plan can be selected by the
fingerprint-matching phase for the new turn; anything the resolver still
returns for that category can only come from the degraded fallback and is
entirely error placeholders. -/
theorem no_stale_plan_reuse (hash : String → String)
    (hinj : Function.Injective hash) (oldPlan newPlan : TravelPlan) (ow : Bool)
    (msgs : List Msg) (allowed : List ToolName) (t : ToolName)
    (hnd : allowed.Nodup)
    (hdest : oldPlan.destination ≠ newPlan.destination)
    (hpf1 : planKeyFieldsPipeFree oldPlan)
    (hpf2 : planKeyFieldsPipeFree newPlan)
    (hrec : ∀ tm ∈ toolMsgsFor msgs t,
      extractToolKeyFromCallId tm.tool_call_id =
        some (computeToolKey hash t oldPlan
          (semanticKeyKwargsForTool oldPlan t ow))) :
    ∀ v, findResult
        (resolveToolResults (synthKeys hash (some newPlan) ow) allowed msgs) t =
          some v →
      isAllErrorPlaceholders v = true := by
  intro v hv
  rw [resolve_eq_specResolve _ allowed msgs t hnd] at hv
  by_cases ht : t ∈ allowed
  · rw [if_pos ht] at hv
    unfold specResolveCategory at hv
    have hnomatch :
        (toolMsgsFor msgs t).reverse.find?
          (fun tm => storedKeyMatches tm.tool_call_id
            (synthKeys hash (some newPlan) ow t)) = none := by
      rw [List.find?_eq_none]
      intro tm htm
      have hkey := hrec tm (List.mem_reverse.1 htm)
      have hmap : synthKeys hash (some newPlan) ow t =
          some (computeToolKey hash t newPlan
            (semanticKeyKwargsForTool newPlan t ow)) := rfl
      unfold storedKeyMatches
      rw [hkey, hmap, Bool.not_eq_true, Bool.and_eq_false_iff]
      right
      rw [beq_eq_false_iff_ne]
      intro hsome
      have hkeyeq := Option.some.inj hsome
      have hstr := hinj hkeyeq
      have hdd := keyString_eq_dest_eq t newPlan oldPlan ow hpf2 hpf1 hstr
      exact hdest hdd.symm
    rw [hnomatch] at hv
    rcases hlast : (toolMsgsFor msgs t).getLast? with _ | tm
    · rw [hlast] at hv
      cases hv
    · rw [hlast] at hv
      by_cases herr : isAllErrorPlaceholders tm.content = true
      · simp only [herr, if_true] at hv
        cases hv
        exact herr
      · simp only [herr, Bool.false_eq_true, if_false] at hv
        cases hv
  · rw [if_neg ht] at hv
    cases hv

/-- **C5 (witness).** The amended theorem applied at the Paris-to-Tokyo
scenario: whatever the resolver still returns is an all-error payload. -/
theorem no_stale_plan_reuse_witness :
    Function.Injective idHash ∧
    c5Old.destination ≠ c5New.destination ∧
    planKeyFieldsPipeFree c5Old ∧ planKeyFieldsPipeFree c5New ∧
    (∀ v, findResult
        (resolveToolResults (synthKeys idHash (some c5New) false)
          [ToolName.search_flights] c5Msgs) .search_flights = some v →
      isAllErrorPlaceholders v = true) := by
  refine ⟨fun a b h => h, by decide, by decide, by decide, ?_⟩
  exact no_stale_plan_reuse idHash (fun a b h => h) c5Old c5New false c5Msgs
    [ToolName.search_flights] .search_flights (by decide) (by decide)
    (by decide) (by decide)
    (by
      intro tm htm
      have : tm = ⟨.search_flights,
          "call_search_flights:" ++ c5OldKey ++ ":0", c5ErrContent⟩ := by
        simpa [toolMsgsFor, c5Msgs] using htm
      rw [this]
      decide)
/-! ### Budget-only turns (C4 machinery) -/

/-- Equality of every `TravelPlan` field except `total_budget`. -/
def nonBudgetFieldsEq (p q : TravelPlan) : Prop :=
  p.origin = q.origin ∧ p.destination = q.destination ∧
    p.departure_date = q.departure_date ∧ p.return_date = q.return_date ∧
    p.duration_days = q.duration_days ∧ p.adults = q.adults ∧
    p.travel_class = q.travel_class ∧
    p.departure_time_pref = q.departure_time_pref ∧
    p.arrival_time_pref = q.arrival_time_pref ∧
    p.user_intent = q.user_intent

lemma fieldDiffers_false_of_budget_only {p q : TravelPlan}
    (h : changedFields p q = {"total_budget"}) (k : String)
    (hk : k ∈ planFieldNames.toFinset) (hne : k ≠ "total_budget") :
    fieldDiffers p q k = false := by
  by_contra hdiff
  have hmem : k ∈ changedFields p q :=
    Finset.mem_filter.2 ⟨hk, by simpa using hdiff⟩
  rw [h] at hmem
  exact hne (Finset.mem_singleton.1 hmem)

lemma changedFields_budget_only {p q : TravelPlan}
    (h : changedFields p q = {"total_budget"}) : nonBudgetFieldsEq p q := by
  have h1 := fieldDiffers_false_of_budget_only h "origin" (by decide) (by decide)
  have h2 := fieldDiffers_false_of_budget_only h "destination" (by decide) (by decide)
  have h3 := fieldDiffers_false_of_budget_only h "departure_date" (by decide) (by decide)
  have h4 := fieldDiffers_false_of_budget_only h "return_date" (by decide) (by decide)
  have h5 := fieldDiffers_false_of_budget_only h "duration_days" (by decide) (by decide)
  have h6 := fieldDiffers_false_of_budget_only h "adults" (by decide) (by decide)
  have h7 := fieldDiffers_false_of_budget_only h "travel_class" (by decide) (by decide)
  have h8 := fieldDiffers_false_of_budget_only h "departure_time_pref" (by decide) (by decide)
  have h9 := fieldDiffers_false_of_budget_only h "arrival_time_pref" (by decide) (by decide)
  have h10 := fieldDiffers_false_of_budget_only h "user_intent" (by decide) (by decide)
  simp [fieldDiffers] at h1 h2 h3 h4 h5 h6 h7 h8 h9 h10
  exact ⟨h1, h2, h3, h4, h5, h6, h7, h8, h9, h10⟩

lemma nonBudgetFieldsEq_refl (p : TravelPlan) : nonBudgetFieldsEq p p :=
  ⟨rfl, rfl, rfl, rfl, rfl, rfl, rfl, rfl, rfl, rfl⟩

lemma synthKeys_eq_of_nonBudgetEq (hash : String → String) (ow : Bool)
    {p q : TravelPlan} (h : nonBudgetFieldsEq p q) :
    synthKeys hash (some p) ow = synthKeys hash (some q) ow := by
  obtain ⟨h1, h2, h3, h4, h5, h6, h7, h8, h9, h10⟩ := h
  funext t
  show some (computeToolKey hash t p (semanticKeyKwargsForTool p t ow)) =
    some (computeToolKey hash t q (semanticKeyKwargsForTool q t ow))
  unfold computeToolKey computeToolKeyString
  rw [semantic_key_parts_eq t p q ow]
  · intro _
    simp [flightsKeyFields, h1, h2, h3, h4, h6, h7, h8, h9]
  · intro _
    simp [hotelsKeyFields, h2, h3, h4, h6]
  · intro _
    simp [activitiesKeyFields, h2]

lemma reuseTools_nodup (intent : Intent) : (reuseTools intent).Nodup := by
  cases intent <;> decide

/-- Per-tool resolution is identical for two plans equal outside the budget
and two message histories with the same tool records. -/
lemma resolve_invariant (hash : String → String) (ow : Bool)
    (allowed : List ToolName) (hnd : allowed.Nodup) {p q : TravelPlan}
    (heq : nonBudgetFieldsEq p q) (msgs1 msgs2 : List Msg)
    (hmsgs : ∀ t, toolMsgsFor msgs2 t = toolMsgsFor msgs1 t) (t : ToolName) :
    findResult (resolveToolResults (synthKeys hash (some q) ow) allowed msgs2)
        t =
      findResult (resolveToolResults (synthKeys hash (some p) ow) allowed
        msgs1) t := by
  rw [resolve_eq_specResolve _ allowed msgs2 t hnd,
    resolve_eq_specResolve _ allowed msgs1 t hnd,
    synthKeys_eq_of_nonBudgetEq hash ow heq, hmsgs t]

lemma executePhaseCore_nil (plan : TravelPlan) (ms : List Msg)
    (merged : LastArgs) (k : ToolName → String) (i : Intent) (ow owd : Bool) :
    (executePhaseCore plan ms merged k i ow owd []).executedTools = [] ∧
    (∀ t,
      toolMsgsFor (executePhaseCore plan ms merged k i ow owd []).newMessages
        t = []) := by
  have hempty : ([] : List (ToolName × ToolOutcome)).isEmpty = true := rfl
  unfold executePhaseCore
  rw [if_pos hempty]
  constructor
  · split <;> rfl
  · intro t
    split <;> rfl

/-- Under a budget-only diff against the stored plan, the execute phase plans
no task: nothing is executed and no tool message is appended. -/
lemma budget_only_executePhase (hash res : String → String) (prov : Providers)
    (ctx : TurnCtx) (plan p : TravelPlan) (ow owd : Bool)
    (hprev : ctx.prevPlan = some p)
    (hch : changedFields p plan = {"total_budget"}) :
    (executePhase hash res prov ctx plan ow owd).executedTools = [] ∧
    (∀ t,
      toolMsgsFor (executePhase hash res prov ctx plan ow owd).newMessages t =
        []) := by
  have hflags : computeRerunFlags ctx.prevPlan plan = (false, false, false) := by
    rw [hprev]
    simp only [computeRerunFlags]
    rw [if_pos hch]
  have hdoF : doFlightsGuard ctx plan = false := by
    unfold doFlightsGuard
    rw [hflags]
    simp [effFlights]
  have hdoH : doHotelsGuard ctx plan = false := by
    unfold doHotelsGuard
    rw [hflags]
    simp [effHotels]
  have hdoA : doActivitiesGuard ctx plan = false := by
    unfold doActivitiesGuard
    rw [hflags]
    simp [effActivities]
  have htasks : buildTasks res prov plan (doFlightsGuard ctx plan)
      (doHotelsGuard ctx plan) (doActivitiesGuard ctx plan) = [] := by
    rw [hdoF, hdoH, hdoA]
    rfl
  simp only [executePhase]
  rw [htasks]
  exact executePhaseCore_nil _ _ _ _ _ _ _

/-- A budget-only turn (relative to the stored plan) executes nothing and
appends no tool message, on every path through the node. -/
lemma budget_only_single_turn (hash res : String → String) (prov : Providers)
    (ctx : TurnCtx) (p planEx : TravelPlan) (hprev : ctx.prevPlan = some p)
    (hbud : ∀ q,
      (callModelTurn hash res prov ctx false false true planEx).travel_plan =
        some q → changedFields p q = {"total_budget"}) :
    (callModelTurn hash res prov ctx false false true planEx).executedTools =
      [] ∧
    (∀ t, toolMsgsFor
      (callModelTurn hash res prov ctx false false true planEx).newMessages t =
        []) := by
  have hmain : callModelTurn hash res prov ctx false false true planEx =
      turnAfterPlan hash res prov ctx planEx false false := rfl
  rw [hmain] at hbud ⊢
  simp only [turnAfterPlan] at hbud ⊢
  by_cases hnd2 : needsDates (applyDefaultOrigin planEx).user_intent = true
  · rw [if_pos hnd2] at hbud ⊢
    cases hg : normalizeDatesOrAsk (applyDefaultOrigin planEx) with
    | ok plan2 =>
      rw [hg] at hbud
      exact budget_only_executePhase hash res prov ctx plan2 p false false
        hprev (hbud plan2
          (executePhase_travel_plan hash res prov ctx plan2 false false))
    | ask msg =>
      exact ⟨rfl, fun t => rfl⟩
    | overflow =>
      exact ⟨rfl, fun t => rfl⟩
  · rw [if_neg hnd2] at hbud ⊢
    by_cases hdest : (applyDefaultOrigin planEx).destination = ""
    · rw [if_pos hdest]
      exact ⟨rfl, fun t => rfl⟩
    · rw [if_neg hdest] at hbud ⊢
      exact budget_only_executePhase hash res prov ctx _ p false false hprev
        (hbud (applyDefaultOrigin planEx)
          (executePhase_travel_plan hash res prov ctx _ false false))

/-- One turn against the thread state with the fixed flags of a normal
processing turn (`lowSignal = false`, customer info present, no one-way cue). -/
def stepNormal (hash res : String → String) (prov : Providers)
    (st : ThreadState) (userText : String) (planEx : TravelPlan) :
    ThreadState :=
  stepThread hash res prov st userText false false true planEx

/-- The turn result a normal turn produces against the thread state. -/
def turnOf (hash res : String → String) (prov : Providers) (st : ThreadState)
    (userText : String) (planEx : TravelPlan) : TurnResult :=
  callModelTurn hash res prov
    ⟨st.travel_plan, st.messages ++ [.human userText], st.lastArgs⟩
    false false true planEx

/-- Each scripted turn records a plan differing from the stored one exactly in
`total_budget` (decidable over a whole run). -/
def budgetOnlySeq (hash res : String → String) (prov : Providers) :
    ThreadState → List (String × TravelPlan) → Bool
  | _, [] => true
  | st, (txt, pl) :: rest =>
    (match st.travel_plan, (turnOf hash res prov st txt pl).travel_plan with
     | some p, some q => changedFields p q = {"total_budget"}
     | _, _ => false) &&
      budgetOnlySeq hash res prov (stepNormal hash res prov st txt pl) rest

/-- The final thread state of a scripted run. -/
def runTurns (hash res : String → String) (prov : Providers) :
    ThreadState → List (String × TravelPlan) → ThreadState
  | st, [] => st
  | st, (txt, pl) :: rest =>
      runTurns hash res prov (stepNormal hash res prov st txt pl) rest

/-- All executor invocations across a scripted run. -/
def executedInRun (hash res : String → String) (prov : Providers) :
    ThreadState → List (String × TravelPlan) → List ToolName
  | _, [] => []
  | st, (txt, pl) :: rest =>
      (turnOf hash res prov st txt pl).executedTools ++
        executedInRun hash res prov (stepNormal hash res prov st txt pl) rest

/-- What one budget-only turn does to the thread: no execution, the new plan
is stored, and the tool records of the history are untouched. -/
lemma budget_only_step_facts (hash res : String → String) (prov : Providers)
    (st : ThreadState) (txt : String) (pl p0 q : TravelPlan)
    (hp0 : st.travel_plan = some p0)
    (hrtp : (turnOf hash res prov st txt pl).travel_plan = some q)
    (hch : changedFields p0 q = {"total_budget"}) :
    (turnOf hash res prov st txt pl).executedTools = [] ∧
    (stepNormal hash res prov st txt pl).travel_plan = some q ∧
    (∀ t, toolMsgsFor (stepNormal hash res prov st txt pl).messages t =
      toolMsgsFor st.messages t) := by
  have hbud : ∀ q2, (turnOf hash res prov st txt pl).travel_plan = some q2 →
      changedFields p0 q2 = {"total_budget"} := by
    intro q2 h2
    rw [hrtp] at h2
    cases h2
    exact hch
  have hsingle := budget_only_single_turn hash res prov
    ⟨st.travel_plan, st.messages ++ [Msg.human txt], st.lastArgs⟩ p0 pl hp0
    hbud
  have hTO : callModelTurn hash res prov
      ⟨st.travel_plan, st.messages ++ [Msg.human txt], st.lastArgs⟩
      false false true pl = turnOf hash res prov st txt pl := rfl
  rw [hTO] at hsingle
  refine ⟨hsingle.1, ?_, ?_⟩
  · show (match (turnOf hash res prov st txt pl).travel_plan with
      | some p => some p | none => st.travel_plan) = some q
    rw [hrtp]
  · intro t
    show toolMsgsFor ((st.messages ++ [Msg.human txt]) ++
      (turnOf hash res prov st txt pl).newMessages) t = toolMsgsFor st.messages t
    rw [toolMsgsFor_append, toolMsgsFor_append, hsingle.2 t]
    simp [toolMsgsFor]

/-- **C4.** Budget-only idempotence: the rerun gate returns
`(false, false, false)` whenever the only changed field between consecutive
plans is `total_budget`; consequently, across any sequence of turns each of
which records a plan differing from the stored one exactly in `total_budget`,
the set of executor invocations is empty and the per-category results the
synthesis resolver presents over the final state are exactly the ones it
would have presented over the initial state — the reused previous results,
unchanged. -/
theorem budget_only_idempotence :
    (∀ p q : TravelPlan, changedFields p q = {"total_budget"} →
      computeRerunFlags (some p) q = (false, false, false)) ∧
    (∀ (hash res : String → String) (prov : Providers) (st : ThreadState)
      (inputs : List (String × TravelPlan)) (p0 : TravelPlan),
      st.travel_plan = some p0 →
      budgetOnlySeq hash res prov st inputs = true →
      executedInRun hash res prov st inputs = [] ∧
      ∀ t, findResult (resolveToolResults
          (synthKeys hash (runTurns hash res prov st inputs).travel_plan false)
          (reuseTools p0.user_intent)
          (runTurns hash res prov st inputs).messages) t =
        findResult (resolveToolResults (synthKeys hash (some p0) false)
          (reuseTools p0.user_intent) st.messages) t) := by
  constructor
  · intro p q h
    simp only [computeRerunFlags]
    rw [if_pos h]
  · intro hash res prov st inputs
    induction inputs generalizing st with
    | nil =>
      intro p0 hp0 _
      refine ⟨rfl, fun t => ?_⟩
      simp only [runTurns]
      rw [hp0]
    | cons hd rest ih =>
      obtain ⟨txt, pl⟩ := hd
      intro p0 hp0 hseq
      simp only [budgetOnlySeq, Bool.and_eq_true] at hseq
      obtain ⟨hmatch, hrest⟩ := hseq
      rw [hp0] at hmatch
      cases hrtp : (turnOf hash res prov st txt pl).travel_plan with
      | none =>
        rw [hrtp] at hmatch
        exact Bool.noConfusion hmatch
      | some q =>
        rw [hrtp] at hmatch
        have hch : changedFields p0 q = {"total_budget"} :=
          of_decide_eq_true hmatch
        obtain ⟨hexec, hplan, hmsgs⟩ :=
          budget_only_step_facts hash res prov st txt pl p0 q hp0 hrtp hch
        obtain ⟨ihE, ihR⟩ :=
          ih (stepNormal hash res prov st txt pl) q hplan hrest
        have hneq := changedFields_budget_only hch
        have hui : p0.user_intent = q.user_intent :=
          hneq.2.2.2.2.2.2.2.2.2
        constructor
        · simp [executedInRun, hexec, ihE]
        · intro t
          simp only [runTurns]
          rw [hui]
          exact (ihR t).trans (resolve_invariant hash false
            (reuseTools q.user_intent) (reuseTools_nodup _) hneq st.messages
            (stepNormal hash res prov st txt pl).messages hmsgs t)

/-- A consistent stored plan for a budget-only run. -/
def w4P0 : TravelPlan :=
  ⟨some "Shanghai", "Tokyo", some "2026-04-10", some "2026-04-14", some 4, 1,
    some "ECONOMY", none, none, some 1000, .full_plan⟩

def w4Plan2 : TravelPlan := { w4P0 with total_budget := some 2000 }

def w4Plan3 : TravelPlan := { w4P0 with total_budget := some 3000 }

def w4St : ThreadState := ⟨some w4P0, [], {}⟩

def w4Inputs : List (String × TravelPlan) :=
  [("raise the budget to 2000", w4Plan2),
   ("make that a budget of 3000", w4Plan3)]

/-- **C4 (witness).** -/
theorem budget_only_idempotence_witness :
    (changedFields w4P0 w4Plan2 = {"total_budget"} ∧
      computeRerunFlags (some w4P0) w4Plan2 = (false, false, false)) ∧
    (w4St.travel_plan = some w4P0 ∧
      budgetOnlySeq idHash idResolver okProviders w4St w4Inputs = true ∧
      executedInRun idHash idResolver okProviders w4St w4Inputs = [] ∧
      findResult (resolveToolResults
          (synthKeys idHash
            (runTurns idHash idResolver okProviders w4St w4Inputs).travel_plan
            false)
          (reuseTools w4P0.user_intent)
          (runTurns idHash idResolver okProviders w4St w4Inputs).messages)
        ToolName.search_flights =
      findResult (resolveToolResults (synthKeys idHash (some w4P0) false)
        (reuseTools w4P0.user_intent) w4St.messages)
        ToolName.search_flights) := by
  have hch : changedFields w4P0 w4Plan2 = {"total_budget"} := by decide
  have hp0 : w4St.travel_plan = some w4P0 := rfl
  have hseq : budgetOnlySeq idHash idResolver okProviders w4St w4Inputs =
      true := by decide
  exact ⟨⟨hch, budget_only_idempotence.1 w4P0 w4Plan2 hch⟩,
    ⟨hp0, hseq,
      (budget_only_idempotence.2 idHash idResolver okProviders w4St w4Inputs
        w4P0 hp0 hseq).1,
      (budget_only_idempotence.2 idHash idResolver okProviders w4St w4Inputs
        w4P0 hp0 hseq).2 ToolName.search_flights⟩⟩
